import Mathlib

/-!
Verification development for the prayer-reminder application
(source file: src/app/index.tsx).

The TypeScript source is shallowly embedded:
* pure helpers (`cleanHHmm`, `parseHHmm`, `keyFor`, the `JSON.parse`
  builtin used by `loadState`) become Lean functions on `String`/`List Char`;
* the effectful pipeline (location fix, HTTP lookup, AsyncStorage,
  expo-notifications, the background task) becomes a state-and-exception
  monad `M` over an explicit `World`, with an event trace recording the
  external calls in the order the source performs them;
* the external collaborators (location provider, HTTP lookup, device clock,
  platform) are oracle inputs collected in an `Env` record;
* JS numbers that the source only passes through (latitude/longitude) are
  represented by `Int`; clock arithmetic uses `Int`/`Nat` exactly where the
  source does arithmetic.
-/

deriving instance DecidableEq for Except

/-- The five prayer names, mirroring `PRAYER_KEYS` in the source. -/
inductive PrayerName where
  | Fajr
  | Dhuhr
  | Asr
  | Maghrib
  | Isha
deriving DecidableEq, Repr

/-- Character list of a prayer name (the string literals of `PRAYER_KEYS`). -/
def prayerChars : PrayerName → List Char
  | .Fajr => ['F', 'a', 'j', 'r']
  | .Dhuhr => ['D', 'h', 'u', 'h', 'r']
  | .Asr => ['A', 's', 'r']
  | .Maghrib => ['M', 'a', 'g', 'h', 'r', 'i', 'b']
  | .Isha => ['I', 's', 'h', 'a']

/-- The prayer name as the string used by the source. -/
def prayerStr (n : PrayerName) : String := String.mk (prayerChars n)

/-- `StoredTimings = Record<PrayerName, string>`: a record with exactly the
five prayer keys, one clock string each. -/
structure StoredTimings where
  Fajr : String
  Dhuhr : String
  Asr : String
  Maghrib : String
  Isha : String
deriving DecidableEq, Repr

/-- Field selection on a `StoredTimings` record by prayer name. -/
def timingFor (t : StoredTimings) : PrayerName → String
  | .Fajr => t.Fajr
  | .Dhuhr => t.Dhuhr
  | .Asr => t.Asr
  | .Maghrib => t.Maghrib
  | .Isha => t.Isha

/-- The persisted `StoredState` record of the source.  `tz` is an
`Option String` because at runtime `json.data.meta.timezone` may be absent
(`undefined`) without any check in the source; `JSON.stringify` then drops
the key. -/
structure StoredState where
  dateISO : String
  lat : Int
  lng : Int
  method : Int
  school : Int
  timings : StoredTimings
  tz : Option String
deriving DecidableEq, Repr

/-!
## The regex model for `cleanHHmm`

`cleanHHmm` runs `raw.match(/\b(\d{1,2}):(\d{2})\b/)`: scan start positions
left to right; at each position require a word boundary, then greedily one
or two ASCII digits, a colon, exactly two digits, and a word boundary.
JS `\w` is `[A-Za-z0-9_]` (ASCII), matching `Char.isAlphanum`/`'_'`.
-/

/-- JS word character (`\w`): ASCII letter, digit or underscore. -/
def isWordChar (c : Char) : Bool := c.isAlphanum || c = '_'

/-- Word boundary after the match: holds at end of input or before a
non-word character (the matched minute digit is a word character). -/
def boundaryAfter : List Char → Bool
  | [] => true
  | c :: _ => !isWordChar c

/-- One-digit-hour attempt of the pattern at the current position:
`d1` already consumed, the rest must be `':' m1 m2` followed by a word
boundary. Returns (hour digits, minute digits). -/
def tryOneDigit (d1 : Char) (rest : List Char) : Option (List Char × List Char) :=
  match rest with
  | ':' :: m1 :: m2 :: rest2 =>
    if m1.isDigit && m2.isDigit && boundaryAfter rest2 then
      some ([d1], [m1, m2])
    else
      none
  | _ => none

/-- Attempt of `\b(\d{1,2}):(\d{2})\b` at the current position (the leading
word boundary has already been checked by the caller).  The `\d{1,2}` is
greedy: the two-digit hour is tried first and the engine backtracks to the
one-digit hour if the remainder fails. -/
def tryHere : List Char → Option (List Char × List Char)
  | [] => none
  | d1 :: rest =>
    if d1.isDigit then
      match rest with
      | d2 :: ':' :: m1 :: m2 :: rest2 =>
        if d2.isDigit && m1.isDigit && m2.isDigit && boundaryAfter rest2 then
          some ([d1, d2], [m1, m2])
        else
          tryOneDigit d1 rest
      | _ => tryOneDigit d1 rest
    else
      none

/-- Word boundary before the match: the first matched character is a digit,
so the boundary holds exactly when the previous character is absent or a
non-word character. -/
def boundaryPrev : Option Char → Bool
  | none => true
  | some c => !isWordChar c

/-- Attempt of the whole pattern at one start position. -/
def attemptAt (prev : Option Char) (cs : List Char) : Option (List Char × List Char) :=
  if boundaryPrev prev then tryHere cs else none

/-- Left-to-right scan of the match attempt over all start positions.
`prev` is the character before the current position (for the `\b` check). -/
def scanMatch : Option Char → List Char → Option (List Char × List Char)
  | prev, [] => attemptAt prev []
  | prev, c :: rest =>
    match attemptAt prev (c :: rest) with
    | some r => some r
    | none => scanMatch (some c) rest

/-- JS `h.padStart(2, "0")` on the captured hour digits. -/
def padStart2 (h : List Char) : List Char :=
  if h.length ≥ 2 then h else '0' :: h

/-- `cleanHHmm` (source lines 62-66): extract the first `H:MM`/`HH:MM`
substring, zero-pad the hour, throw on no match. -/
def cleanHHmm (raw : String) : Except String String :=
  match scanMatch none raw.data with
  | none => .error ("Invalid time format: " ++ raw)
  | some (h, m) => .ok (String.mk (padStart2 h ++ ':' :: m))

/-!
## `parseHHmm` and JS `Number` semantics

`parseHHmm` does `hhmm.split(":").map(Number)` and destructures the first
two entries.  A missing second entry is JS `undefined`: `Number.isNaN` is
`false` on it and all `<`/`>` comparisons with it are `false`, so the model
keeps the minute as an `Option`.  The `Number(string)` conversion is
modelled for trimmed optionally-signed decimal integer numerals (and the
empty string, which converts to 0); other numeric forms do not occur in
this program's inputs and convert to NaN here.
-/

/-- Result of the JS `Number()` conversion: a number or NaN. -/
inductive JsNum where
  | nan
  | num (n : Int)
deriving DecidableEq, Repr

/-- JS whitespace trimmed by `Number()` (common forms). -/
def isJsWs (c : Char) : Bool := c = ' ' || c = '\t' || c = '\n' || c = '\r'

/-- Trim JS whitespace from both ends of a character list. -/
def trimWsEnds (cs : List Char) : List Char :=
  ((cs.dropWhile isJsWs).reverse.dropWhile isJsWs).reverse

/-- Decimal value of a digit list. -/
def digitsVal (cs : List Char) : Nat :=
  cs.foldl (fun n c => 10 * n + (c.toNat - 48)) 0

/-- Model of the JS `Number(string)` conversion (see section comment). -/
def jsNumber (s : String) : JsNum :=
  match trimWsEnds s.data with
  | [] => .num 0
  | c :: rest =>
    if c = '-' then
      if rest ≠ [] && rest.all Char.isDigit then .num (-(digitsVal rest : Int)) else .nan
    else if c = '+' then
      if rest ≠ [] && rest.all Char.isDigit then .num (digitsVal rest) else .nan
    else if (c :: rest).all Char.isDigit then
      .num (digitsVal (c :: rest))
    else
      .nan

/-- JS `s.split(sep)` for a single-character separator: auxiliary walk with
an accumulator for the current piece. -/
def splitOnAux (sep : Char) : List Char → List Char → List String
  | [], acc => [String.mk acc.reverse]
  | c :: rest, acc =>
    if c = sep then String.mk acc.reverse :: splitOnAux sep rest []
    else splitOnAux sep rest (c :: acc)

/-- JS `s.split(sep)` for a single-character separator. -/
def jsSplitOn (sep : Char) (s : String) : List String :=
  splitOnAux sep s.data []

/-- `parseHHmm` (source lines 68-73).  The hour entry always exists
(`split` never returns an empty array); the minute entry is `undefined`
when the input has no colon, in which case the JS range checks are all
`false` and the function returns `{hour, minute: undefined}`. -/
def parseHHmm (hhmm : String) : Except String (Int × Option Int) :=
  let parts := (jsSplitOn ':' hhmm).map jsNumber
  match parts.head?, parts.get? 1 with
  | none, _ => .error ("Bad HH:mm: " ++ hhmm)
  | some .nan, _ => .error ("Bad HH:mm: " ++ hhmm)
  | some (.num _), some .nan => .error ("Bad HH:mm: " ++ hhmm)
  | some (.num hv), none =>
    if hv < 0 || hv > 23 then .error ("Bad HH:mm: " ++ hhmm)
    else .ok (hv, none)
  | some (.num hv), some (.num mv) =>
    if hv < 0 || hv > 23 || mv < 0 || mv > 59 then .error ("Bad HH:mm: " ++ hhmm)
    else .ok (hv, some mv)

/-- The spec's `times` invariant on one value: shape `^\d{2}:\d{2}$` with
hour in [0,23] and minute in [0,59]. -/
def validHHmm (s : String) : Bool :=
  match s.data with
  | [a, b, c0, d, e] =>
    a.isDigit && b.isDigit && (c0 = ':') && d.isDigit && e.isDigit &&
      (digitsVal [a, b] ≤ 23) && (digitsVal [d, e] ≤ 59)
  | _ => false

/-- The weaker shape-only property `^\d{2}:\d{2}$` (no range check): this is
all that `cleanHHmm` itself guarantees. -/
def shapeHHmm (s : String) : Bool :=
  match s.data with
  | [a, b, c0, d, e] =>
    a.isDigit && b.isDigit && (c0 = ':') && d.isDigit && e.isDigit
  | _ => false

/-- `keyFor` (source lines 41-42): the composite de-duplication identity
`tz|name|hhmm` built by the template literal. -/
def keyFor (tz : String) (name : PrayerName) (hhmm : String) : String :=
  String.mk (tz.data ++ '|' :: (prayerChars name ++ '|' :: hhmm.data))

/-- Template-literal rendering of a possibly-`undefined` string value (JS
interpolates `undefined` as the text "undefined"). -/
def jsStrOfOpt : Option String → String
  | none => "undefined"
  | some s => s

/-!
## JSON values and the `JSON.parse` builtin

`loadState` (source lines 264-267) reads the raw string stored under the
fixed key and returns `raw ? (JSON.parse(raw) as StoredState) : null`:
the parse result is returned with a compile-time-only cast and no runtime
validation, the empty string is falsy, and a JSON parse failure throws.
The builtin is modelled for JSON texts whose numerals are (optionally
signed) integers and whose strings contain no escape sequences — all the
shapes relevant to this program's store. -/
inductive Json where
  | null
  | bool (b : Bool)
  | num (n : Int)
  | str (s : String)
  | arr (items : List Json)
  | obj (members : List (String × Json))

/-- Opening brace character. -/
def lbrace : Char := Char.ofNat 123

/-- Closing brace character. -/
def rbrace : Char := Char.ofNat 125

/-- JSON whitespace. -/
def isJsonWs (c : Char) : Bool := c = ' ' || c = '\t' || c = '\n' || c = '\r'

/-- Skip JSON whitespace. -/
def skipJsonWs (cs : List Char) : List Char := cs.dropWhile isJsonWs

/-- Parse the body of a JSON string after the opening quote (escape
sequences and control characters are rejected, see the section comment). -/
def parseStrBody : List Char → List Char → Option (String × List Char)
  | [], _ => none
  | c :: rest, acc =>
    if c = '"' then some (String.mk acc.reverse, rest)
    else if c = '\\' || c.toNat < 32 then none
    else parseStrBody rest (c :: acc)

/-- Parse a JSON natural numeral (JSON forbids redundant leading zeros;
a following `.`, `e` or `E` would start a float, outside this model). -/
def parseJsonNat (cs : List Char) : Option (Nat × List Char) :=
  let ds := cs.takeWhile Char.isDigit
  let rest := cs.drop ds.length
  if ds = [] then none
  else if ds.head? = some '0' && ds.length > 1 then none
  else match rest with
    | r :: _ => if r = '.' || r = 'e' || r = 'E' then none else some (digitsVal ds, rest)
    | [] => some (digitsVal ds, rest)

mutual

/-- Parse one JSON value (fuel-indexed recursive descent). -/
def parseJsonVal : Nat → List Char → Option (Json × List Char)
  | 0, _ => none
  | fuel + 1, cs =>
    match skipJsonWs cs with
    | [] => none
    | c :: rest =>
      if c = 'n' then
        match rest with
        | 'u' :: 'l' :: 'l' :: rest2 => some (.null, rest2)
        | _ => none
      else if c = 't' then
        match rest with
        | 'r' :: 'u' :: 'e' :: rest2 => some (.bool true, rest2)
        | _ => none
      else if c = 'f' then
        match rest with
        | 'a' :: 'l' :: 's' :: 'e' :: rest2 => some (.bool false, rest2)
        | _ => none
      else if c = '"' then
        match parseStrBody rest [] with
        | some (s, rest2) => some (.str s, rest2)
        | none => none
      else if c = '-' then
        match parseJsonNat rest with
        | some (n, rest2) => some (.num (-(n : Int)), rest2)
        | none => none
      else if c.isDigit then
        match parseJsonNat (c :: rest) with
        | some (n, rest2) => some (.num n, rest2)
        | none => none
      else if c = '[' then
        match skipJsonWs rest with
        | ']' :: rest2 => some (.arr [], rest2)
        | rest1 => (parseJsonItems fuel rest1).map (fun p => (.arr p.1, p.2))
      else if c = lbrace then
        match skipJsonWs rest with
        | r :: rest2 => if r = rbrace then some (.obj [], rest2)
                        else (parseJsonMembers fuel (r :: rest2)).map (fun p => (.obj p.1, p.2))
        | [] => none
      else none

/-- Parse the comma-separated items of a non-empty JSON array. -/
def parseJsonItems : Nat → List Char → Option (List Json × List Char)
  | 0, _ => none
  | fuel + 1, cs =>
    match parseJsonVal fuel cs with
    | none => none
    | some (v, rest) =>
      match skipJsonWs rest with
      | ',' :: rest2 => (parseJsonItems fuel rest2).map (fun p => (v :: p.1, p.2))
      | ']' :: rest2 => some ([v], rest2)
      | _ => none

/-- Parse the comma-separated members of a non-empty JSON object. -/
def parseJsonMembers : Nat → List Char → Option (List (String × Json) × List Char)
  | 0, _ => none
  | fuel + 1, cs =>
    match skipJsonWs cs with
    | '"' :: rest =>
      match parseStrBody rest [] with
      | none => none
      | some (k, rest1) =>
        match skipJsonWs rest1 with
        | ':' :: rest2 =>
          match parseJsonVal fuel rest2 with
          | none => none
          | some (v, rest3) =>
            match skipJsonWs rest3 with
            | ',' :: rest4 => (parseJsonMembers fuel rest4).map (fun p => ((k, v) :: p.1, p.2))
            | r :: rest4 => if r = rbrace then some ([(k, v)], rest4) else none
            | [] => none
        | _ => none
    | _ => none

end

/-- Model of `JSON.parse`: parse one value, allow trailing whitespace,
require the rest of the text to be empty. -/
def jsonParse (s : String) : Option Json :=
  match parseJsonVal (2 * s.data.length + 4) s.data with
  | some (v, rest) => if skipJsonWs rest = [] then some v else none
  | none => none

/-- `loadState` (source lines 264-267) at the raw storage level:
`AsyncStorage.getItem` yields the stored string or `null`, and the body is
`raw ? (JSON.parse(raw) as StoredState) : null`.  `null` and the empty
string are falsy; the parse result is returned unvalidated (a JS `null`
result is indistinguishable from the absent case). -/
def loadStateRaw (raw : Option String) : Except String Json :=
  match raw with
  | none => .ok .null
  | some s =>
    if s = "" then .ok .null
    else
      match jsonParse s with
      | some j => .ok j
      | none => .error "SyntaxError: invalid JSON"

example : jsonParse "null" = some .null := rfl
example : jsonParse "abc" = none := rfl
example : jsonParse " [1, -2]" = some (.arr [.num 1, .num (-2)]) := rfl
example : jsonParse "\x7b\"a\": 1\x7d" = some (.obj [("a", .num 1)]) := rfl
example : jsonParse "\x7b\"dateISO\":\"2026-10-12\",\"lat\":1\x7d" =
    some (.obj [("dateISO", .str "2026-10-12"), ("lat", .num 1)]) := rfl

/-!
## The lookup response

`fetchPrayerTimes` reads `json.code`, `json.data.timings.<Prayer>`,
`json.data.meta.timezone` and (for a log line) `json?.data?.date?.readable`
from the parsed response body.  Each level may be absent at runtime
(`Option`), mirroring JS `undefined`; reading a property of an absent
object throws a `TypeError`.
-/

/-- The `timings` object of the response; each field may be absent. -/
structure ApiTimings where
  Fajr : Option String
  Dhuhr : Option String
  Asr : Option String
  Maghrib : Option String
  Isha : Option String
deriving DecidableEq, Repr

/-- The `meta` object of the response. -/
structure ApiMeta where
  timezone : Option String
deriving DecidableEq, Repr

/-- The `date` object of the response (only logged, never used). -/
structure ApiDate where
  readable : Option String
deriving DecidableEq, Repr

/-- The `data` object of the response. -/
structure ApiData where
  timings : Option ApiTimings
  meta : Option ApiMeta
  date : Option ApiDate
deriving DecidableEq, Repr

/-- The parsed response body: `null`-ness flag, application status code and
payload. -/
structure ApiJson where
  isNull : Bool
  code : Option Int
  data : Option ApiData
deriving DecidableEq, Repr

/-- Decoding part of `fetchPrayerTimes` (source lines 108-125), applied to
the parsed response body: status check, the five `cleanHHmm` applications
in source order, then the unchecked timezone read.  A `TypeError` marks a
JS property access on `undefined`. -/
def cleanField (raw : Option String) : Except String String :=
  match raw with
  | none => .error "TypeError: raw.match on undefined"
  | some r => cleanHHmm r

/-- Decode the response: see `cleanField`.  `json.data.meta.timezone` is
read with a compile-time-only cast, so an absent `timezone` key (with
`meta` present) yields `undefined` without any failure. -/
def fetchDecode (json : ApiJson) : Except String (StoredTimings × Option String) :=
  if json.isNull || json.code != some 200 then .error "Failed to fetch prayer times"
  else
    match json.data with
    | none => .error "TypeError: reading timings of undefined"
    | some data =>
      match data.timings with
      | none => .error "TypeError: reading Fajr of undefined"
      | some all => do
        let fajr ← cleanField all.Fajr
        let dhuhr ← cleanField all.Dhuhr
        let asr ← cleanField all.Asr
        let maghrib ← cleanField all.Maghrib
        let isha ← cleanField all.Isha
        match data.meta with
        | none => .error "TypeError: reading timezone of undefined"
        | some meta => .ok (⟨fajr, dhuhr, asr, maghrib, isha⟩, meta.timezone)

/-!
## Effectful world

The pipeline's observable state: the persisted record (modelled at the
parsed level — `saveState` is its only writer in the source), the set of
installed notification triggers, the module-level `__scheduledKeys` set and
`__isScheduling` flag, and a trace of the external calls performed, in
order.  All operations are async I/O interleaved on one logical thread, so
a run is a function of this state.
-/

/-- An installed notification trigger: a daily calendar trigger at a
device-local hour/minute, or a one-shot time-interval trigger.  The content
is identified by its title (`body`, `sound` and the action category are
presentation payload carried unchanged from the literals in the source). -/
inductive Trigger where
  | daily (title : String) (hour : Int) (minute : Option Int)
  | oneShot (title : String) (seconds : Int)
deriving DecidableEq, Repr

/-- Trace events: one per external call the source performs. -/
inductive Ev where
  | getLocation
  | httpFetch (date : String) (lat lng : Int) (method school : Int)
  | storageGet
  | storageSet (s : StoredState)
  | cancelAllNotifs
  | clearKeys
  | settle
  | setChannel
  | scheduleNotif (t : Trigger)
  | listScheduled
deriving DecidableEq, Repr

/-- Events emitted by the trigger-installation path (`scheduleAllPrayers`):
channel registration and trigger installation only. -/
def isInstallEv : Ev → Bool
  | .setChannel => true
  | .scheduleNotif _ => true
  | _ => false

/-- The mutable world. -/
structure World where
  storage : Option StoredState
  installed : List Trigger
  scheduledKeys : List String
  isScheduling : Bool
  events : List Ev
deriving DecidableEq, Repr

/-- Read-only oracle inputs: the external collaborators and the device
clock at this run. -/
structure Env where
  platformAndroid : Bool
  location : Except String (Int × Int)
  api : Except String ApiJson
  nowHour : Int
  nowMinute : Int
  todayLocal : String
  dateApi : String
  deviceTZ : String

/-- Computation monad: state (`World`) plus JS exceptions.  An exception
carries the world because side effects already performed persist when a JS
exception propagates. -/
def M (α : Type) : Type := World → Except String α × World

/-- Monadic return. -/
def M.pure' (a : α) : M α := fun w => (.ok a, w)

/-- Monadic bind: sequencing with exception propagation. -/
def M.bind' (x : M α) (f : α → M β) : M β := fun w =>
  match x w with
  | (.ok a, w') => f a w'
  | (.error e, w') => (.error e, w')

instance : Monad M where
  pure := M.pure'
  bind := M.bind'

/-- Raise a JS exception. -/
def throwM (e : String) : M α := fun w => (.error e, w)

/-- Lift a pure `Except` computation (e.g. a helper that may throw). -/
def liftE (x : Except String α) : M α := fun w => (x, w)

/-- Modify the world. -/
def modifyW (f : World → World) : M Unit := fun w => (.ok (), f w)

/-- Read the world. -/
def getWorld : M World := fun w => (.ok w, w)

/-- Append a trace event. -/
def emit (e : Ev) : M Unit :=
  modifyW fun w => { w with events := w.events ++ [e] }

/-- JS `try`/`finally` (no `catch`): the finaliser runs on both paths and
an exception from the body then propagates. -/
def tryFinallyM (x : M α) (fin : M Unit) : M α := fun w =>
  match x w with
  | (.ok a, w') =>
    match fin w' with
    | (.ok _, w'') => (.ok a, w'')
    | (.error e, w'') => (.error e, w'')
  | (.error e, w') =>
    match fin w' with
    | (.ok _, w'') => (.error e, w'')
    | (.error e2, w'') => (.error e2, w'')

/-- JS `try`/`catch`. -/
def tryCatchM (x : M α) (h : String → M α) : M α := fun w =>
  match x w with
  | (.ok a, w') => (.ok a, w')
  | (.error e, w') => h e w'

/-!
## The program

Each definition below embeds the source function of the same name.
-/

/-- `localDateISO` (line 57): `DateTime.now().toFormat("yyyy-LL-dd")`, the
device-local calendar date at this run. -/
def localDateISO (env : Env) : String := env.todayLocal

/-- `dateForApi` (line 60): `DateTime.now().toFormat("dd-LL-yyyy")`. -/
def dateForApi (env : Env) : String := env.dateApi

/-- `Location.getCurrentPositionAsync` followed by destructuring of
`loc.coords` (lines 271-274). -/
def getCurrentPositionAsync (env : Env) : M (Int × Int) := do
  emit .getLocation
  liftE env.location

/-- `fetchPrayerTimes` (lines 98-126): one request to the lookup for the
device-local date and the given coordinates/method/school, then decode. -/
def fetchPrayerTimes (env : Env) (lat lng : Int) (method school : Int) :
    M (StoredTimings × Option String) := do
  emit (.httpFetch (dateForApi env) lat lng method school)
  let json ← liftE env.api
  liftE (fetchDecode json)

/-- `Notifications.scheduleNotificationAsync`: installs one trigger. -/
def scheduleNotificationAsync (t : Trigger) : M Unit :=
  modifyW fun w =>
    { w with installed := w.installed ++ [t], events := w.events ++ [.scheduleNotif t] }

/-- `ensureNotifChannel` (lines 75-85): Android-only channel registration. -/
def ensureNotifChannel (env : Env) : M Unit :=
  if env.platformAndroid then emit .setChannel else pure ()

/-- Record a key in the module-level `__scheduledKeys` set. -/
def addScheduledKey (k : String) : M Unit :=
  modifyW fun w => { w with scheduledKeys := w.scheduledKeys ++ [k] }

/-- `scheduleDailyPrayer` (lines 129-187): parse the clock string, skip if
the composite identity was already installed this session, otherwise
install the recurring daily trigger, record the identity, and — when the
current device-local time matches the target minute — additionally fire an
immediate one-shot. -/
def scheduleDailyPrayer (env : Env) (name : PrayerName) (hhmm : String)
    (tz : Option String) : M Unit := do
  let hm ← liftE (parseHHmm hhmm)
  let k := keyFor (jsStrOfOpt tz) name hhmm
  let w ← getWorld
  if k ∈ w.scheduledKeys then
    pure ()
  else do
    scheduleNotificationAsync (.daily (prayerStr name ++ " time") hm.1 hm.2)
    addScheduledKey k
    if env.nowHour = hm.1 ∧ some env.nowMinute = hm.2 then
      scheduleNotificationAsync (.oneShot (prayerStr name ++ " time (now)") 1)
    else
      pure ()

/-- `scheduleFajr` (lines 223-225). -/
def scheduleFajr (env : Env) (state : StoredState) : M Unit :=
  scheduleDailyPrayer env .Fajr state.timings.Fajr state.tz

/-- `scheduleDhuhr` (lines 226-228). -/
def scheduleDhuhr (env : Env) (state : StoredState) : M Unit :=
  scheduleDailyPrayer env .Dhuhr state.timings.Dhuhr state.tz

/-- `scheduleAsr` (lines 229-231). -/
def scheduleAsr (env : Env) (state : StoredState) : M Unit :=
  scheduleDailyPrayer env .Asr state.timings.Asr state.tz

/-- `scheduleMaghrib` (lines 232-234). -/
def scheduleMaghrib (env : Env) (state : StoredState) : M Unit :=
  scheduleDailyPrayer env .Maghrib state.timings.Maghrib state.tz

/-- `scheduleIsha` (lines 235-237). -/
def scheduleIsha (env : Env) (state : StoredState) : M Unit :=
  scheduleDailyPrayer env .Isha state.timings.Isha state.tz

/-- Set the module-level `__isScheduling` flag. -/
def setIsScheduling (b : Bool) : M Unit :=
  modifyW fun w => { w with isScheduling := b }

/-- The `try` block of `scheduleAllPrayers` (lines 246-254): ensure the
channel, then schedule the five prayers in order. -/
def scheduleAllPrayersBody (env : Env) (state : StoredState) : M Unit := do
  ensureNotifChannel env
  scheduleFajr env state
  scheduleDhuhr env state
  scheduleAsr env state
  scheduleMaghrib env state
  scheduleIsha env state

/-- `scheduleAllPrayers` (lines 240-258): single-flight guard on
`__isScheduling`, then the body with a `finally` that clears the flag. -/
def scheduleAllPrayers (env : Env) (state : StoredState) : M Unit := do
  let w ← getWorld
  if w.isScheduling then
    pure ()
  else do
    setIsScheduling true
    tryFinallyM (scheduleAllPrayersBody env state) (setIsScheduling false)

/-- `saveState` (lines 261-263): serialize and overwrite the single record
under the fixed key. -/
def saveState (s : StoredState) : M Unit :=
  modifyW fun w => { w with storage := some s, events := w.events ++ [.storageSet s] }

/-- `loadState` (lines 264-267) at the typed level used by the pipeline:
the store holds only records written by `saveState`, whose
stringify/parse round trip is the identity (`loadStateRaw` covers the raw
level). -/
def loadState : M (Option StoredState) := fun w =>
  (.ok w.storage, { w with events := w.events ++ [.storageGet] })

/-- `Notifications.cancelAllScheduledNotificationsAsync`. -/
def cancelAllScheduledNotificationsAsync : M Unit :=
  modifyW fun w => { w with installed := [], events := w.events ++ [.cancelAllNotifs] }

/-- `__scheduledKeys.clear()`. -/
def clearScheduledKeys : M Unit :=
  modifyW fun w => { w with scheduledKeys := [], events := w.events ++ [.clearKeys] }

/-- The 50 ms settle delay of the refresh pipeline (line 293). -/
def settleDelay : M Unit := emit .settle

/-- `Notifications.getAllScheduledNotificationsAsync`. -/
def getAllScheduledNotificationsAsync : M (List Trigger) := fun w =>
  (.ok w.installed, { w with events := w.events ++ [.listScheduled] })

/-- `refreshAndReschedule` (lines 270-297): location fix, lookup, build
and persist the state (with the freshly computed device-local date), cancel
all triggers, clear the de-duplication set, settle, reinstall, and return
the new state. -/
def refreshAndReschedule (env : Env) (method school : Int) : M StoredState := do
  let pos ← getCurrentPositionAsync env
  let tw ← fetchPrayerTimes env pos.1 pos.2 method school
  let state : StoredState :=
    { dateISO := localDateISO env, lat := pos.1, lng := pos.2,
      method := method, school := school, timings := tw.1, tz := tw.2 }
  saveState state
  cancelAllScheduledNotificationsAsync
  clearScheduledKeys
  settleDelay
  scheduleAllPrayers env state
  pure state

/-- Background-task result codes (`BackgroundFetch.BackgroundFetchResult`). -/
inductive BgResult where
  | newData
  | noData
  | failed
deriving DecidableEq, Repr

/-- The `try` block of the background task (lines 302-314): load the
persisted state; if absent or stale, run the full refresh with the stored
method/school (defaulting to 20 and Shafi = 0); otherwise reinstall only
when no triggers remain installed. -/
def bgTaskBody (env : Env) : M BgResult := do
  let stored ← loadState
  let today := localDateISO env
  match stored with
  | none =>
    let _ ← refreshAndReschedule env 20 0
    pure .newData
  | some st =>
    if st.dateISO ≠ today then do
      let _ ← refreshAndReschedule env st.method st.school
      pure .newData
    else do
      let scheduled ← getAllScheduledNotificationsAsync
      if scheduled.length = 0 then
        scheduleAllPrayers env st
      else
        pure ()
      pure .newData

/-- The background task entrypoint (lines 301-319): the body wrapped in the
boundary `try`/`catch` that converts any failure into the `Failed` result
code. -/
def bgTask (env : Env) : M BgResult :=
  tryCatchM (bgTaskBody env) (fun _ => pure .failed)

/-- One legal cooperative interleaving of two `scheduleAllPrayers` calls
for the same state: caller A passes the single-flight guard, sets the flag
and suspends at the first `await` inside its `try` block; caller B then
runs in full (seeing the flag set); A resumes and finishes.  Built from the
same definitions that embed the source. -/
def scheduleAllPrayersRace (env : Env) (state : StoredState) : M Unit := do
  let w ← getWorld
  if w.isScheduling then
    pure ()
  else do
    setIsScheduling true
    tryFinallyM
      (do scheduleAllPrayers env state
          scheduleAllPrayersBody env state)
      (setIsScheduling false)
example : cleanHHmm "5:03" = .ok "05:03" := by decide
example : cleanHHmm "23:59 (WIB)" = .ok "23:59" := by decide
example : cleanHHmm "abc" = .error "Invalid time format: abc" := by decide
example : cleanHHmm "5:3" = .error "Invalid time format: 5:3" := by decide
example : parseHHmm "05:03" = .ok (5, some 3) := by decide
example : parseHHmm "99:99" = .error "Bad HH:mm: 99:99" := by decide
example : parseHHmm "7" = .ok (7, none) := by decide

/-!
## Concrete fixtures (shared by witnesses)
-/

/-- A well-formed lookup response. -/
def apiOk : ApiJson :=
  { isNull := false, code := some 200,
    data := some
      { timings := some
          { Fajr := some "04:30", Dhuhr := some "12:00", Asr := some "15:15",
            Maghrib := some "18:00", Isha := some "19:10" },
        meta := some { timezone := some "Asia/Jakarta" },
        date := some { readable := some "12 Oct 2026" } } }

/-- A benign environment: permissions granted, good fix, good response. -/
def envOk : Env :=
  { platformAndroid := true, location := .ok (6, 106), api := .ok apiOk,
    nowHour := 9, nowMinute := 30, todayLocal := "2026-10-12",
    dateApi := "12-10-2026", deviceTZ := "Asia/Jakarta" }

/-- A fresh world: nothing stored, nothing installed, empty session state. -/
def w0 : World :=
  { storage := none, installed := [], scheduledKeys := [], isScheduling := false,
    events := [] }

/-- The state `refreshAndReschedule envOk 20 0` builds. -/
def stateOk : StoredState :=
  { dateISO := "2026-10-12", lat := 6, lng := 106, method := 20, school := 0,
    timings := { Fajr := "04:30", Dhuhr := "12:00", Asr := "15:15",
                 Maghrib := "18:00", Isha := "19:10" },
    tz := some "Asia/Jakarta" }

example : (refreshAndReschedule envOk 20 0 w0).1 = .ok stateOk := rfl
example : (refreshAndReschedule envOk 20 0 w0).2.storage = some stateOk := rfl
example : (refreshAndReschedule envOk 20 0 w0).2.installed =
    [.daily "Fajr time" 4 (some 30), .daily "Dhuhr time" 12 (some 0),
     .daily "Asr time" 15 (some 15), .daily "Maghrib time" 18 (some 0),
     .daily "Isha time" 19 (some 10)] := rfl
example : (refreshAndReschedule envOk 20 0 w0).2.events =
    [.getLocation, .httpFetch "12-10-2026" 6 106 20 0, .storageSet stateOk,
     .cancelAllNotifs, .clearKeys, .settle, .setChannel,
     .scheduleNotif (.daily "Fajr time" 4 (some 30)),
     .scheduleNotif (.daily "Dhuhr time" 12 (some 0)),
     .scheduleNotif (.daily "Asr time" 15 (some 15)),
     .scheduleNotif (.daily "Maghrib time" 18 (some 0)),
     .scheduleNotif (.daily "Isha time" 19 (some 10))] := rfl
example : (bgTask envOk w0).1 = .ok .newData := rfl
example :
    (bgTask { envOk with location := .error "Location permission denied" } w0).1 =
      .ok .failed := rfl

/-!
## Helper lemmas: running the monad
-/

theorem M_bind_apply (x : M α) (f : α → M β) (w : World) :
    (x >>= f) w =
      match x w with
      | (.ok a, w') => f a w'
      | (.error e, w') => (.error e, w') := rfl

theorem M_pure_apply (a : α) (w : World) : (pure a : M α) w = (.ok a, w) := rfl

theorem bind_ok {x : M α} {f : α → M β} {w w'' : World} {b : β}
    (h : (x >>= f) w = (.ok b, w'')) :
    ∃ a w', x w = (.ok a, w') ∧ f a w' = (.ok b, w'') := by
  rw [M_bind_apply] at h
  rcases hx : x w with ⟨r, w'⟩
  cases r with
  | ok a =>
    refine ⟨a, w', rfl, ?_⟩
    rw [hx] at h
    exact h
  | error e =>
    rw [hx] at h
    simp at h

theorem tryFinallyM_ok {x : M α} {fin : M Unit} {w w'' : World} {a : α}
    (h : tryFinallyM x fin w = (.ok a, w'')) :
    ∃ w', x w = (.ok a, w') ∧ fin w' = (.ok (), w'') := by
  unfold tryFinallyM at h
  split at h
  next b w' heq =>
    split at h
    next u w2 heq2 =>
      injection h with h1 h2
      subst h2
      injection h1 with h1
      subst h1
      cases u
      exact ⟨w', heq, heq2⟩
    next e w2 heq2 => simp at h
  next e w' heq =>
    split at h
    next u w2 heq2 => simp at h
    next e2 w2 heq2 => simp at h

/-!
## Helper lemmas: the install path only registers triggers

`scheduleAllPrayers` (and every piece of it) never touches the persisted
record, and every event it emits is a channel registration or a trigger
installation — in particular no location fix, no network request.
-/

def InstallsOnly (m : M α) : Prop :=
  ∀ w, ((m w).2.storage = w.storage) ∧
    ∃ tail, (m w).2.events = w.events ++ tail ∧ tail.all isInstallEv = true

theorem installsOnly_pure (a : α) : InstallsOnly (pure a : M α) := by
  intro w
  refine ⟨rfl, [], ?_, rfl⟩
  rw [M_pure_apply]
  simp

theorem installsOnly_bind {x : M α} {f : α → M β}
    (hx : InstallsOnly x) (hf : ∀ a, InstallsOnly (f a)) :
    InstallsOnly (x >>= f) := by
  intro w
  rw [M_bind_apply]
  rcases hxw : x w with ⟨r, w'⟩
  have hx' := hx w
  rw [hxw] at hx'
  rcases hx' with ⟨hs, t1, he, ht1⟩
  cases r with
  | ok a =>
    have hf' := (hf a) w'
    rcases hf' with ⟨hs2, t2, he2, ht2⟩
    refine ⟨by rw [hs2, hs], t1 ++ t2, ?_, ?_⟩
    · rw [he2, he, List.append_assoc]
    · rw [List.all_append, ht1, ht2]
      rfl
  | error e =>
    exact ⟨hs, t1, he, ht1⟩

theorem installsOnly_ite {c : Prop} [Decidable c] {m1 m2 : M α}
    (h1 : InstallsOnly m1) (h2 : InstallsOnly m2) :
    InstallsOnly (if c then m1 else m2) := by
  split
  · exact h1
  · exact h2

theorem installsOnly_tryFinallyM {x : M α} {fin : M Unit}
    (hx : InstallsOnly x) (hf : InstallsOnly fin) :
    InstallsOnly (tryFinallyM x fin) := by
  intro w
  unfold tryFinallyM
  rcases hxw : x w with ⟨r, w'⟩
  have h1 := hx w
  rw [hxw] at h1
  dsimp only at h1
  rcases h1 with ⟨hs, t1, he, ht1⟩
  have key : ∀ (rf : Except String Unit) (wf : World), fin w' = (rf, wf) →
      wf.storage = w.storage ∧
        ∃ tail, wf.events = w.events ++ tail ∧ tail.all isInstallEv = true := by
    intro rf wf hfw
    have h2 := hf w'
    rw [hfw] at h2
    dsimp only at h2
    rcases h2 with ⟨hs2, t2, he2, ht2⟩
    refine ⟨hs2.trans hs, t1 ++ t2, ?_, ?_⟩
    · rw [he2, he, List.append_assoc]
    · rw [List.all_append, ht1, ht2]
      rfl
  cases r with
  | ok a =>
    dsimp only
    rcases hfw : fin w' with ⟨rf, wf⟩
    cases rf with
    | ok u => exact key _ _ hfw
    | error e => exact key _ _ hfw
  | error e =>
    dsimp only
    rcases hfw : fin w' with ⟨rf, wf⟩
    cases rf with
    | ok u => exact key _ _ hfw
    | error e2 => exact key _ _ hfw

theorem installsOnly_emit {e : Ev} (he : isInstallEv e = true) :
    InstallsOnly (emit e) := by
  intro w
  refine ⟨rfl, [e], rfl, by simp [he]⟩

theorem installsOnly_silent {m : M α}
    (h : ∀ w, (m w).2.storage = w.storage ∧ (m w).2.events = w.events) :
    InstallsOnly m := by
  intro w
  exact ⟨(h w).1, [], by simp [(h w).2], rfl⟩

theorem installsOnly_scheduleNotificationAsync (t : Trigger) :
    InstallsOnly (scheduleNotificationAsync t) := by
  intro w
  exact ⟨rfl, [.scheduleNotif t], rfl, by simp [isInstallEv]⟩

theorem installsOnly_scheduleDailyPrayer (env : Env) (n : PrayerName)
    (hhmm : String) (tz : Option String) :
    InstallsOnly (scheduleDailyPrayer env n hhmm tz) := by
  unfold scheduleDailyPrayer
  refine installsOnly_bind (installsOnly_silent fun w => ⟨rfl, rfl⟩) fun hm => ?_
  refine installsOnly_bind (installsOnly_silent fun w => ⟨rfl, rfl⟩) fun w => ?_
  refine installsOnly_ite (installsOnly_pure ()) ?_
  refine installsOnly_bind (installsOnly_scheduleNotificationAsync _) fun _ => ?_
  refine installsOnly_bind (installsOnly_silent fun w => ⟨rfl, rfl⟩) fun _ => ?_
  exact installsOnly_ite (installsOnly_scheduleNotificationAsync _) (installsOnly_pure ())

theorem installsOnly_scheduleAllPrayersBody (env : Env) (s : StoredState) :
    InstallsOnly (scheduleAllPrayersBody env s) := by
  unfold scheduleAllPrayersBody ensureNotifChannel
  refine installsOnly_bind
    (installsOnly_ite (installsOnly_emit rfl) (installsOnly_pure ())) fun _ => ?_
  refine installsOnly_bind (installsOnly_scheduleDailyPrayer _ _ _ _) fun _ => ?_
  refine installsOnly_bind (installsOnly_scheduleDailyPrayer _ _ _ _) fun _ => ?_
  refine installsOnly_bind (installsOnly_scheduleDailyPrayer _ _ _ _) fun _ => ?_
  refine installsOnly_bind (installsOnly_scheduleDailyPrayer _ _ _ _) fun _ => ?_
  exact installsOnly_scheduleDailyPrayer _ _ _ _

theorem installsOnly_scheduleAllPrayers (env : Env) (s : StoredState) :
    InstallsOnly (scheduleAllPrayers env s) := by
  unfold scheduleAllPrayers
  refine installsOnly_bind (installsOnly_silent fun w => ⟨rfl, rfl⟩) fun w => ?_
  refine installsOnly_ite (installsOnly_pure ()) ?_
  refine installsOnly_bind (installsOnly_silent fun w => ⟨rfl, rfl⟩) fun _ => ?_
  exact installsOnly_tryFinallyM (installsOnly_scheduleAllPrayersBody env s)
    (installsOnly_silent fun w => ⟨rfl, rfl⟩)

/-!
## Helper lemmas: running `scheduleDailyPrayer`
-/

theorem scheduleDailyPrayer_run_skip (env : Env) (n : PrayerName) (hhmm : String)
    (tz : Option String) (w : World) (h : Int) (m : Option Int)
    (hp : parseHHmm hhmm = .ok (h, m))
    (hk : keyFor (jsStrOfOpt tz) n hhmm ∈ w.scheduledKeys) :
    scheduleDailyPrayer env n hhmm tz w = (.ok (), w) := by
  unfold scheduleDailyPrayer
  simp only [M_bind_apply, M_pure_apply, liftE, getWorld, hp, hk, if_true]

theorem scheduleDailyPrayer_run_install (env : Env) (n : PrayerName) (hhmm : String)
    (tz : Option String) (w : World) (h : Int) (m : Option Int)
    (hp : parseHHmm hhmm = .ok (h, m))
    (hk : keyFor (jsStrOfOpt tz) n hhmm ∉ w.scheduledKeys) :
    scheduleDailyPrayer env n hhmm tz w =
      (.ok (), { w with
        installed := w.installed ++ Trigger.daily (prayerStr n ++ " time") h m ::
          (if env.nowHour = h ∧ some env.nowMinute = m then
            [Trigger.oneShot (prayerStr n ++ " time (now)") 1] else []),
        scheduledKeys := w.scheduledKeys ++ [keyFor (jsStrOfOpt tz) n hhmm],
        events := w.events ++
          Ev.scheduleNotif (Trigger.daily (prayerStr n ++ " time") h m) ::
          (if env.nowHour = h ∧ some env.nowMinute = m then
            [Ev.scheduleNotif (Trigger.oneShot (prayerStr n ++ " time (now)") 1)]
           else []) }) := by
  unfold scheduleDailyPrayer scheduleNotificationAsync addScheduledKey
  by_cases hc : env.nowHour = h ∧ some env.nowMinute = m
  · simp only [M_bind_apply, M_pure_apply, liftE, getWorld, modifyW, hp, hk, hc,
      if_true, if_false, if_pos, if_neg, not_false_iff]
    simp [modifyW, List.append_assoc]
  · simp only [M_bind_apply, M_pure_apply, liftE, getWorld, modifyW, hp, hk, hc,
      if_true, if_false, if_pos, if_neg, not_false_iff]
    try simp [modifyW, List.append_assoc]

theorem scheduleDailyPrayer_run_error (env : Env) (n : PrayerName) (hhmm : String)
    (tz : Option String) (w : World) (e : String)
    (hp : parseHHmm hhmm = .error e) :
    scheduleDailyPrayer env n hhmm tz w = (.error e, w) := by
  unfold scheduleDailyPrayer
  simp only [M_bind_apply, liftE, hp]

theorem scheduleDailyPrayer_ok_parse {env : Env} {n : PrayerName} {hhmm : String}
    {tz : Option String} {w w' : World} {u : Unit}
    (h : scheduleDailyPrayer env n hhmm tz w = (.ok u, w')) :
    ∃ hm, parseHHmm hhmm = .ok hm := by
  rcases hp : parseHHmm hhmm with e | hm
  · rw [scheduleDailyPrayer_run_error env n hhmm tz w e hp] at h
    simp at h
  · exact ⟨hm, rfl⟩

/-!
## Helper lemmas: `scheduleAllPrayers`
-/

theorem scheduleAllPrayers_guard (env : Env) (s : StoredState) (w : World)
    (hs : w.isScheduling = true) :
    scheduleAllPrayers env s w = (.ok (), w) := by
  unfold scheduleAllPrayers
  simp only [M_bind_apply, M_pure_apply, getWorld, hs, if_true]

theorem cleanField_ok {o : Option String} {v : String} (h : cleanField o = .ok v) :
    ∃ r, o = some r ∧ cleanHHmm r = .ok v := by
  cases o with
  | none => simp [cleanField] at h
  | some r => exact ⟨r, rfl, h⟩

theorem scheduleAllPrayers_ok_parse {env : Env} {s : StoredState} {w w' : World}
    {u : Unit} (hs : w.isScheduling = false)
    (h : scheduleAllPrayers env s w = (.ok u, w')) :
    ∀ n : PrayerName, ∃ hm, parseHHmm (timingFor s.timings n) = .ok hm := by
  unfold scheduleAllPrayers at h
  simp only [M_bind_apply, M_pure_apply, getWorld, hs, Bool.false_eq_true,
    if_false] at h
  simp only [M_bind_apply, setIsScheduling, modifyW] at h
  obtain ⟨w2, hbody, hfin⟩ := tryFinallyM_ok h
  unfold scheduleAllPrayersBody at hbody
  obtain ⟨a1, wA, h1, hrest⟩ := bind_ok hbody
  obtain ⟨a2, wB, h2, hrest⟩ := bind_ok hrest
  obtain ⟨a3, wC, h3, hrest⟩ := bind_ok hrest
  obtain ⟨a4, wD, h4, hrest⟩ := bind_ok hrest
  obtain ⟨a5, wE, h5, h6⟩ := bind_ok hrest
  unfold scheduleFajr at h2
  unfold scheduleDhuhr at h3
  unfold scheduleAsr at h4
  unfold scheduleMaghrib at h5
  unfold scheduleIsha at h6
  intro n
  cases n with
  | Fajr => exact scheduleDailyPrayer_ok_parse h2
  | Dhuhr => exact scheduleDailyPrayer_ok_parse h3
  | Asr => exact scheduleDailyPrayer_ok_parse h4
  | Maghrib => exact scheduleDailyPrayer_ok_parse h5
  | Isha => exact scheduleDailyPrayer_ok_parse h6

/-!
## Helper lemmas: `fetchDecode`
-/

theorem fetchDecode_badStatus (json : ApiJson)
    (h : json.isNull = true ∨ json.code ≠ some 200) :
    fetchDecode json = .error "Failed to fetch prayer times" := by
  unfold fetchDecode
  rcases h with h | h
  · simp [h]
  · have hbne : (json.code != some 200) = true := by
      simp [bne_iff_ne]
      exact h
    simp [hbne]

theorem exceptBind_ok (a : α) (f : α → Except String β) :
    ((Except.ok a : Except String α) >>= f) = f a := rfl

theorem exceptBind_err (e : String) (f : α → Except String β) :
    ((Except.error e : Except String α) >>= f) = .error e := rfl

theorem fetchDecode_missingField {json : ApiJson} {data : ApiData} {t : ApiTimings}
    (hd : json.data = some data) (ht : data.timings = some t)
    (hmiss : t.Fajr = none ∨ t.Dhuhr = none ∨ t.Asr = none ∨
      t.Maghrib = none ∨ t.Isha = none) :
    ∃ e, fetchDecode json = .error e := by
  unfold fetchDecode
  by_cases hstat : (json.isNull || json.code != some 200) = true
  · exact ⟨"Failed to fetch prayer times", by simp [hstat]⟩
  · rw [if_neg hstat]
    simp only [hd, ht]
    rcases hF : cleanField t.Fajr with e | vF
    · exact ⟨e, by simp only [hF, exceptBind_err]⟩
    rcases hD : cleanField t.Dhuhr with e | vD
    · exact ⟨e, by simp only [hF, hD, exceptBind_ok, exceptBind_err]⟩
    rcases hA : cleanField t.Asr with e | vA
    · exact ⟨e, by simp only [hF, hD, hA, exceptBind_ok, exceptBind_err]⟩
    rcases hM : cleanField t.Maghrib with e | vM
    · exact ⟨e, by simp only [hF, hD, hA, hM, exceptBind_ok, exceptBind_err]⟩
    rcases hI : cleanField t.Isha with e | vI
    · exact ⟨e, by simp only [hF, hD, hA, hM, hI, exceptBind_ok, exceptBind_err]⟩
    exfalso
    rcases hmiss with hm | hm | hm | hm | hm
    · rw [hm] at hF
      simp [cleanField] at hF
    · rw [hm] at hD
      simp [cleanField] at hD
    · rw [hm] at hA
      simp [cleanField] at hA
    · rw [hm] at hM
      simp [cleanField] at hM
    · rw [hm] at hI
      simp [cleanField] at hI

theorem fetchDecode_ok_clean {json : ApiJson} {t : StoredTimings} {tz : Option String}
    (h : fetchDecode json = .ok (t, tz)) :
    (∃ r, cleanHHmm r = .ok t.Fajr) ∧ (∃ r, cleanHHmm r = .ok t.Dhuhr) ∧
    (∃ r, cleanHHmm r = .ok t.Asr) ∧ (∃ r, cleanHHmm r = .ok t.Maghrib) ∧
    (∃ r, cleanHHmm r = .ok t.Isha) := by
  unfold fetchDecode at h
  split at h
  · simp at h
  · split at h
    · simp at h
    next data heqd =>
      split at h
      · simp at h
      next all heqt =>
        rcases hF : cleanField all.Fajr with e | vF
        · rw [hF, exceptBind_err] at h
          simp at h
        rw [hF, exceptBind_ok] at h
        rcases hD : cleanField all.Dhuhr with e | vD
        · rw [hD, exceptBind_err] at h
          simp at h
        rw [hD, exceptBind_ok] at h
        rcases hA : cleanField all.Asr with e | vA
        · rw [hA, exceptBind_err] at h
          simp at h
        rw [hA, exceptBind_ok] at h
        rcases hM : cleanField all.Maghrib with e | vM
        · rw [hM, exceptBind_err] at h
          simp at h
        rw [hM, exceptBind_ok] at h
        rcases hI : cleanField all.Isha with e | vI
        · rw [hI, exceptBind_err] at h
          simp at h
        rw [hI, exceptBind_ok] at h
        split at h
        · simp at h
        next meta heqm =>
          injection h with h1
          injection h1 with h1 h2
          subst h1
          obtain ⟨rF, _, hcF⟩ := cleanField_ok hF
          obtain ⟨rD, _, hcD⟩ := cleanField_ok hD
          obtain ⟨rA, _, hcA⟩ := cleanField_ok hA
          obtain ⟨rM, _, hcM⟩ := cleanField_ok hM
          obtain ⟨rI, _, hcI⟩ := cleanField_ok hI
          exact ⟨⟨rF, hcF⟩, ⟨rD, hcD⟩, ⟨rA, hcA⟩, ⟨rM, hcM⟩, ⟨rI, hcI⟩⟩

/-!
## Helper lemmas: dissecting a successful refresh
-/

theorem refresh_ok_cases {env : Env} {m sc : Int} {w : World} {st : StoredState}
    {w' : World} (h : refreshAndReschedule env m sc w = (.ok st, w')) :
    ∃ lat lng json t tz w5 w6,
      env.location = .ok (lat, lng) ∧ env.api = .ok json ∧
      fetchDecode json = .ok (t, tz) ∧
      st = { dateISO := env.todayLocal, lat := lat, lng := lng, method := m,
             school := sc, timings := t, tz := tz } ∧
      scheduleAllPrayers env st w5 = (.ok (), w6) ∧ w' = w6 ∧
      w5.storage = some st ∧ w5.installed = [] ∧ w5.scheduledKeys = [] ∧
      w5.isScheduling = w.isScheduling ∧
      w5.events = w.events ++ [Ev.getLocation,
        Ev.httpFetch env.dateApi lat lng m sc, Ev.storageSet st,
        Ev.cancelAllNotifs, Ev.clearKeys, Ev.settle] := by
  unfold refreshAndReschedule getCurrentPositionAsync fetchPrayerTimes saveState
    cancelAllScheduledNotificationsAsync clearScheduledKeys settleDelay emit
    dateForApi localDateISO at h
  rcases hloc : env.location with e | p
  · simp only [M_bind_apply, M_pure_apply, liftE, modifyW, hloc] at h
    simp at h
  · rcases p with ⟨lat, lng⟩
    rcases hapi : env.api with e | json
    · simp only [M_bind_apply, M_pure_apply, liftE, modifyW, hloc, hapi] at h
      simp at h
    · rcases hdec : fetchDecode json with e | pt
      · simp only [M_bind_apply, M_pure_apply, liftE, modifyW, hloc, hapi, hdec] at h
        simp at h
      · rcases pt with ⟨t, tz⟩
        simp only [M_bind_apply, M_pure_apply, liftE, modifyW, hloc, hapi, hdec] at h
        split at h
        next a w6 heq =>
          cases a
          injection h with h1 h2
          injection h1 with h1
          subst h1
          subst h2
          refine ⟨lat, lng, json, t, tz, _, w6, rfl, rfl, hdec, rfl, heq, rfl,
            rfl, rfl, rfl, rfl, ?_⟩
          simp
        next e w6 heq => simp at h

/-!
## Helper lemmas: shape of `cleanHHmm` results
-/

def hmShape (h m : List Char) : Prop :=
  ((∃ a, h = [a] ∧ a.isDigit = true) ∨
    (∃ a b, h = [a, b] ∧ a.isDigit = true ∧ b.isDigit = true)) ∧
  (∃ c d, m = [c, d] ∧ c.isDigit = true ∧ d.isDigit = true)

theorem tryOneDigit_shape {d1 : Char} {rest h m : List Char}
    (hd : d1.isDigit = true) (ht : tryOneDigit d1 rest = some (h, m)) :
    hmShape h m := by
  unfold tryOneDigit at ht
  split at ht
  next m1 m2 rest2 =>
    split at ht
    next hc =>
      injection ht with ht
      injection ht with h1 h2
      subst h1
      subst h2
      simp only [Bool.and_eq_true] at hc
      exact ⟨.inl ⟨d1, rfl, hd⟩, m1, m2, rfl, hc.1.1, hc.1.2⟩
    next => simp at ht
  next => simp at ht

theorem tryHere_shape {cs h m : List Char} (ht : tryHere cs = some (h, m)) :
    hmShape h m := by
  unfold tryHere at ht
  split at ht
  · simp at ht
  next d1 rest =>
    split at ht
    next hd =>
      split at ht
      next d2 m1 m2 rest2 =>
        split at ht
        next hc =>
          injection ht with ht
          injection ht with h1 h2
          subst h1
          subst h2
          simp only [Bool.and_eq_true] at hc
          exact ⟨.inr ⟨d1, d2, rfl, hd, hc.1.1.1⟩, m1, m2, rfl, hc.1.1.2, hc.1.2⟩
        next => exact tryOneDigit_shape hd ht
      next => exact tryOneDigit_shape hd ht
    next => simp at ht

theorem attemptAt_shape {prev : Option Char} {cs h m : List Char}
    (ha : attemptAt prev cs = some (h, m)) : hmShape h m := by
  unfold attemptAt at ha
  split at ha
  · exact tryHere_shape ha
  · simp at ha

theorem scanMatch_shape :
    ∀ (cs : List Char) (prev : Option Char) (h m : List Char),
      scanMatch prev cs = some (h, m) → hmShape h m := by
  intro cs
  induction cs with
  | nil =>
    intro prev h m hs
    unfold scanMatch at hs
    exact attemptAt_shape hs
  | cons c rest ih =>
    intro prev h m hs
    unfold scanMatch at hs
    cases hatt : attemptAt prev (c :: rest) with
    | some r =>
      rw [hatt] at hs
      injection hs with hs
      subst hs
      exact attemptAt_shape hatt
    | none =>
      rw [hatt] at hs
      exact ih (some c) h m hs

def dataShape (r : String) : Prop :=
  ∃ a b c d, r.data = [a, b, ':', c, d] ∧ a.isDigit = true ∧ b.isDigit = true ∧
    c.isDigit = true ∧ d.isDigit = true

theorem cleanHHmm_shape {raw r : String} (h : cleanHHmm raw = .ok r) :
    dataShape r := by
  unfold cleanHHmm at h
  split at h
  · simp at h
  next hh mm hsm =>
    injection h with h
    subst h
    obtain ⟨hhour, c, d, hmEq, hc, hd⟩ := scanMatch_shape raw.data none hh mm hsm
    subst hmEq
    rcases hhour with ⟨a, hEq, ha⟩ | ⟨a, b, hEq, ha, hb⟩
    · subst hEq
      exact ⟨'0', a, c, d, by simp [padStart2], by decide, ha, hc, hd⟩
    · subst hEq
      exact ⟨a, b, c, d, by simp [padStart2], ha, hb, hc, hd⟩

/-!
## Helper lemmas: `parseHHmm` on `\d{2}:\d{2}` strings
-/

theorem digit_ne_of {c : Char} (x : Char) (h : c.isDigit = true)
    (hx : x.isDigit = false) : ¬(c = x) := by
  intro heq
  subst heq
  rw [h] at hx
  cases hx

theorem digit_not_ws {c : Char} (h : c.isDigit = true) : isJsWs c = false := by
  have h1 := digit_ne_of ' ' h (by decide)
  have h2 := digit_ne_of '\t' h (by decide)
  have h3 := digit_ne_of '\n' h (by decide)
  have h4 := digit_ne_of '\r' h (by decide)
  simp [isJsWs, h1, h2, h3, h4]

theorem splitOnAux_shape (a b c d : Char) (ha : ¬(a = ':')) (hb : ¬(b = ':'))
    (hc : ¬(c = ':')) (hd : ¬(d = ':')) :
    splitOnAux ':' [a, b, ':', c, d] [] =
      [String.mk [a, b], String.mk [c, d]] := by
  simp [splitOnAux, ha, hb, hc, hd]

theorem jsNumber_two_digits (a b : Char) (ha : a.isDigit = true)
    (hb : b.isDigit = true) :
    jsNumber (String.mk [a, b]) = .num (digitsVal [a, b]) := by
  unfold jsNumber trimWsEnds
  have hwa := digit_not_ws ha
  have hwb := digit_not_ws hb
  have h1 := digit_ne_of '-' ha (by decide)
  have h2 := digit_ne_of '+' ha (by decide)
  simp [List.dropWhile, hwa, hwb, h1, h2, ha, hb]

theorem parseHHmm_shape_eval {r : String} {a b c d : Char}
    (hdata : r.data = [a, b, ':', c, d]) (ha : a.isDigit = true)
    (hb : b.isDigit = true) (hc : c.isDigit = true) (hd : d.isDigit = true) :
    parseHHmm r =
      (if (digitsVal [a, b] : Int) < 0 || (digitsVal [a, b] : Int) > 23 ||
          (digitsVal [c, d] : Int) < 0 || (digitsVal [c, d] : Int) > 59 then
        .error ("Bad HH:mm: " ++ r)
       else .ok ((digitsVal [a, b] : Int), some (digitsVal [c, d] : Int))) := by
  have hsplit : jsSplitOn ':' r = [String.mk [a, b], String.mk [c, d]] := by
    unfold jsSplitOn
    rw [hdata]
    exact splitOnAux_shape a b c d (digit_ne_of ':' ha (by decide))
      (digit_ne_of ':' hb (by decide)) (digit_ne_of ':' hc (by decide))
      (digit_ne_of ':' hd (by decide))
  unfold parseHHmm
  rw [hsplit]
  simp only [List.map, jsNumber_two_digits a b ha hb, jsNumber_two_digits c d hc hd,
    List.head?, List.get?]

theorem validHHmm_of_shape_parse {r : String} {pm : Int × Option Int}
    (hs : dataShape r) (hp : parseHHmm r = .ok pm) : validHHmm r = true := by
  obtain ⟨a, b, c, d, hdata, ha, hb, hc, hd⟩ := hs
  rw [parseHHmm_shape_eval hdata ha hb hc hd] at hp
  split at hp
  · simp at hp
  next hbound =>
    simp only [Bool.or_eq_true, decide_eq_true_eq, not_or] at hbound
    obtain ⟨⟨⟨_, h23⟩, _⟩, h59⟩ := hbound
    rw [not_lt] at h23 h59
    have h23n : digitsVal [a, b] ≤ 23 := by exact_mod_cast h23
    have h59n : digitsVal [c, d] ≤ 59 := by exact_mod_cast h59
    unfold validHHmm
    rw [hdata]
    simp [ha, hb, hc, hd, h23n, h59n]

/-!
## Helper lemmas: keys, valid clock strings, trigger counting
-/

/-- World with one extra trace event. -/
def withEv (w : World) (e : Ev) : World := { w with events := w.events ++ [e] }

theorem keyFor_ne {tz : String} {n1 n2 : PrayerName} (hn : ¬(n1 = n2))
    (h1 h2 : String) : ¬(keyFor tz n1 h1 = keyFor tz n2 h2) := by
  intro heq
  unfold keyFor at heq
  have hdata := congrArg String.data heq
  simp only [] at hdata
  have h3 := List.append_cancel_left hdata
  injection h3 with _ h4
  cases n1 <;> cases n2 <;> simp only [prayerChars, List.cons_append,
    List.nil_append] at h4 <;> try exact hn rfl
  all_goals injection h4 with hhead _
  all_goals exact absurd hhead (by decide)

theorem valid_inv {s : String} (hv : validHHmm s = true) :
    dataShape s ∧
      ∃ a b c d, s.data = [a, b, ':', c, d] ∧
        parseHHmm s = .ok ((digitsVal [a, b] : Int), some (digitsVal [c, d] : Int)) := by
  unfold validHHmm at hv
  split at hv
  next a b c0 d e hdata =>
    simp only [Bool.and_eq_true, decide_eq_true_eq] at hv
    obtain ⟨⟨⟨⟨⟨⟨ha, hb⟩, hcol⟩, hd⟩, he⟩, h23⟩, h59⟩ := hv
    subst hcol
    have hshape : dataShape s := ⟨a, b, d, e, hdata, ha, hb, hd, he⟩
    refine ⟨hshape, a, b, d, e, hdata, ?_⟩
    rw [parseHHmm_shape_eval hdata ha hb hd he]
    rw [if_neg]
    simp only [Bool.or_eq_true, decide_eq_true_eq, not_or]
    refine ⟨⟨⟨?_, ?_⟩, ?_⟩, ?_⟩ <;> omega
  next => cases hv

/-- The recurring daily trigger installed for one prayer. -/
def dailyTrig (n : PrayerName) (h : Int) (m : Option Int) : Trigger :=
  .daily (prayerStr n ++ " time") h m

/-- The same-minute catch-up one-shot for one prayer. -/
def catchTrig (n : PrayerName) : Trigger :=
  .oneShot (prayerStr n ++ " time (now)") 1

/-- Is this trigger the recurring daily trigger of prayer `n`? -/
def isDailyFor (n : PrayerName) : Trigger → Bool
  | .daily title _ _ => title = prayerStr n ++ " time"
  | .oneShot _ _ => false

theorem isDailyFor_daily (n n' : PrayerName) (h : Int) (m : Option Int) :
    isDailyFor n (dailyTrig n' h m) = decide (n' = n) := by
  cases n <;> cases n' <;> rfl

theorem isDailyFor_catch (n n' : PrayerName) :
    isDailyFor n (catchTrig n') = false := rfl

theorem filter_catch_seg (n n' : PrayerName) (c : Prop) [Decidable c] :
    List.filter (isDailyFor n) (if c then [catchTrig n'] else []) = [] := by
  split <;> simp [isDailyFor_catch]

/-!
## Helper lemmas: full runs of the install path
-/

/-- Triggers installed for one prayer in one fresh install: the daily
trigger, plus the catch-up one-shot when "now" matches. -/
def installSeg (env : Env) (n : PrayerName) (h : Int) (m : Option Int) : List Trigger :=
  dailyTrig n h m :: (if env.nowHour = h ∧ some env.nowMinute = m then [catchTrig n] else [])

/-- Events emitted for one prayer in one fresh install. -/
def installSegEv (env : Env) (n : PrayerName) (h : Int) (m : Option Int) : List Ev :=
  Ev.scheduleNotif (dailyTrig n h m) ::
    (if env.nowHour = h ∧ some env.nowMinute = m then
      [Ev.scheduleNotif (catchTrig n)] else [])

/-- Channel-registration events of `ensureNotifChannel`. -/
def chanEvs (env : Env) : List Ev :=
  if env.platformAndroid then [Ev.setChannel] else []

/-- The five per-prayer installs of `scheduleAllPrayers` (its `try` block
after the channel registration). -/
def fiveSchedules (env : Env) (s : StoredState) : M Unit := do
  scheduleFajr env s
  scheduleDhuhr env s
  scheduleAsr env s
  scheduleMaghrib env s
  scheduleIsha env s

theorem body_eq_fiveSchedules (env : Env) (s : StoredState) :
    scheduleAllPrayersBody env s =
      (ensureNotifChannel env >>= fun _ => fiveSchedules env s) := rfl

theorem ensureNotifChannel_run (env : Env) (w : World) :
    ensureNotifChannel env w = (.ok (), { w with events := w.events ++ chanEvs env }) := by
  unfold ensureNotifChannel chanEvs emit modifyW
  split
  · rfl
  · simp [M_pure_apply]

theorem fiveSchedules_run (env : Env) (s : StoredState) (w : World)
    (hF hD hA hM hI : Int) (mF mD mA mM mI : Option Int)
    (hkeys : w.scheduledKeys = [])
    (hpF : parseHHmm s.timings.Fajr = .ok (hF, mF))
    (hpD : parseHHmm s.timings.Dhuhr = .ok (hD, mD))
    (hpA : parseHHmm s.timings.Asr = .ok (hA, mA))
    (hpM : parseHHmm s.timings.Maghrib = .ok (hM, mM))
    (hpI : parseHHmm s.timings.Isha = .ok (hI, mI)) :
    fiveSchedules env s w = (.ok (), { w with
      installed := w.installed ++ (installSeg env .Fajr hF mF ++
        (installSeg env .Dhuhr hD mD ++ (installSeg env .Asr hA mA ++
        (installSeg env .Maghrib hM mM ++ installSeg env .Isha hI mI)))),
      scheduledKeys := [keyFor (jsStrOfOpt s.tz) .Fajr s.timings.Fajr,
        keyFor (jsStrOfOpt s.tz) .Dhuhr s.timings.Dhuhr,
        keyFor (jsStrOfOpt s.tz) .Asr s.timings.Asr,
        keyFor (jsStrOfOpt s.tz) .Maghrib s.timings.Maghrib,
        keyFor (jsStrOfOpt s.tz) .Isha s.timings.Isha],
      events := w.events ++ (installSegEv env .Fajr hF mF ++
        (installSegEv env .Dhuhr hD mD ++ (installSegEv env .Asr hA mA ++
        (installSegEv env .Maghrib hM mM ++ installSegEv env .Isha hI mI)))) }) := by
  have hkF : keyFor (jsStrOfOpt s.tz) .Fajr s.timings.Fajr ∉ w.scheduledKeys := by
    rw [hkeys]
    exact List.not_mem_nil _
  unfold fiveSchedules scheduleFajr scheduleDhuhr scheduleAsr scheduleMaghrib
    scheduleIsha
  rw [M_bind_apply,
    scheduleDailyPrayer_run_install env .Fajr s.timings.Fajr s.tz w hF mF hpF hkF]
  dsimp only
  rw [M_bind_apply, scheduleDailyPrayer_run_install env .Dhuhr s.timings.Dhuhr s.tz
    _ hD mD hpD (by
      have n1 := @keyFor_ne (jsStrOfOpt s.tz) PrayerName.Dhuhr PrayerName.Fajr
        (by decide) s.timings.Dhuhr s.timings.Fajr
      simp [hkeys, n1])]
  dsimp only
  rw [M_bind_apply, scheduleDailyPrayer_run_install env .Asr s.timings.Asr s.tz
    _ hA mA hpA (by
      have n1 := @keyFor_ne (jsStrOfOpt s.tz) PrayerName.Asr PrayerName.Fajr
        (by decide) s.timings.Asr s.timings.Fajr
      have n2 := @keyFor_ne (jsStrOfOpt s.tz) PrayerName.Asr PrayerName.Dhuhr
        (by decide) s.timings.Asr s.timings.Dhuhr
      simp [hkeys, n1, n2])]
  dsimp only
  rw [M_bind_apply, scheduleDailyPrayer_run_install env .Maghrib s.timings.Maghrib
    s.tz _ hM mM hpM (by
      have n1 := @keyFor_ne (jsStrOfOpt s.tz) PrayerName.Maghrib PrayerName.Fajr
        (by decide) s.timings.Maghrib s.timings.Fajr
      have n2 := @keyFor_ne (jsStrOfOpt s.tz) PrayerName.Maghrib PrayerName.Dhuhr
        (by decide) s.timings.Maghrib s.timings.Dhuhr
      have n3 := @keyFor_ne (jsStrOfOpt s.tz) PrayerName.Maghrib PrayerName.Asr
        (by decide) s.timings.Maghrib s.timings.Asr
      simp [hkeys, n1, n2, n3])]
  dsimp only
  rw [scheduleDailyPrayer_run_install env .Isha s.timings.Isha s.tz
    _ hI mI hpI (by
      have n1 := @keyFor_ne (jsStrOfOpt s.tz) PrayerName.Isha PrayerName.Fajr
        (by decide) s.timings.Isha s.timings.Fajr
      have n2 := @keyFor_ne (jsStrOfOpt s.tz) PrayerName.Isha PrayerName.Dhuhr
        (by decide) s.timings.Isha s.timings.Dhuhr
      have n3 := @keyFor_ne (jsStrOfOpt s.tz) PrayerName.Isha PrayerName.Asr
        (by decide) s.timings.Isha s.timings.Asr
      have n4 := @keyFor_ne (jsStrOfOpt s.tz) PrayerName.Isha PrayerName.Maghrib
        (by decide) s.timings.Isha s.timings.Maghrib
      simp [hkeys, n1, n2, n3, n4])]
  dsimp only
  simp [hkeys, installSeg, installSegEv, dailyTrig, catchTrig, List.append_assoc]

theorem fiveSchedules_skip (env : Env) (s : StoredState) (w : World)
    (hF hD hA hM hI : Int) (mF mD mA mM mI : Option Int)
    (hpF : parseHHmm s.timings.Fajr = .ok (hF, mF))
    (hpD : parseHHmm s.timings.Dhuhr = .ok (hD, mD))
    (hpA : parseHHmm s.timings.Asr = .ok (hA, mA))
    (hpM : parseHHmm s.timings.Maghrib = .ok (hM, mM))
    (hpI : parseHHmm s.timings.Isha = .ok (hI, mI))
    (hmF : keyFor (jsStrOfOpt s.tz) .Fajr s.timings.Fajr ∈ w.scheduledKeys)
    (hmD : keyFor (jsStrOfOpt s.tz) .Dhuhr s.timings.Dhuhr ∈ w.scheduledKeys)
    (hmA : keyFor (jsStrOfOpt s.tz) .Asr s.timings.Asr ∈ w.scheduledKeys)
    (hmM : keyFor (jsStrOfOpt s.tz) .Maghrib s.timings.Maghrib ∈ w.scheduledKeys)
    (hmI : keyFor (jsStrOfOpt s.tz) .Isha s.timings.Isha ∈ w.scheduledKeys) :
    fiveSchedules env s w = (.ok (), w) := by
  unfold fiveSchedules scheduleFajr scheduleDhuhr scheduleAsr scheduleMaghrib
    scheduleIsha
  rw [M_bind_apply,
    scheduleDailyPrayer_run_skip env .Fajr s.timings.Fajr s.tz w hF mF hpF hmF]
  dsimp only
  rw [M_bind_apply,
    scheduleDailyPrayer_run_skip env .Dhuhr s.timings.Dhuhr s.tz w hD mD hpD hmD]
  dsimp only
  rw [M_bind_apply,
    scheduleDailyPrayer_run_skip env .Asr s.timings.Asr s.tz w hA mA hpA hmA]
  dsimp only
  rw [M_bind_apply,
    scheduleDailyPrayer_run_skip env .Maghrib s.timings.Maghrib s.tz w hM mM hpM hmM]
  dsimp only
  rw [scheduleDailyPrayer_run_skip env .Isha s.timings.Isha s.tz w hI mI hpI hmI]

theorem scheduleAllPrayers_run_fresh (env : Env) (s : StoredState) (w : World)
    (hF hD hA hM hI : Int) (mF mD mA mM mI : Option Int)
    (hflag : w.isScheduling = false) (hkeys : w.scheduledKeys = [])
    (hpF : parseHHmm s.timings.Fajr = .ok (hF, mF))
    (hpD : parseHHmm s.timings.Dhuhr = .ok (hD, mD))
    (hpA : parseHHmm s.timings.Asr = .ok (hA, mA))
    (hpM : parseHHmm s.timings.Maghrib = .ok (hM, mM))
    (hpI : parseHHmm s.timings.Isha = .ok (hI, mI)) :
    scheduleAllPrayers env s w = (.ok (), { w with
      installed := w.installed ++ (installSeg env .Fajr hF mF ++
        (installSeg env .Dhuhr hD mD ++ (installSeg env .Asr hA mA ++
        (installSeg env .Maghrib hM mM ++ installSeg env .Isha hI mI)))),
      scheduledKeys := [keyFor (jsStrOfOpt s.tz) .Fajr s.timings.Fajr,
        keyFor (jsStrOfOpt s.tz) .Dhuhr s.timings.Dhuhr,
        keyFor (jsStrOfOpt s.tz) .Asr s.timings.Asr,
        keyFor (jsStrOfOpt s.tz) .Maghrib s.timings.Maghrib,
        keyFor (jsStrOfOpt s.tz) .Isha s.timings.Isha],
      isScheduling := false,
      events := w.events ++ (chanEvs env ++ (installSegEv env .Fajr hF mF ++
        (installSegEv env .Dhuhr hD mD ++ (installSegEv env .Asr hA mA ++
        (installSegEv env .Maghrib hM mM ++ installSegEv env .Isha hI mI))))) }) := by
  unfold scheduleAllPrayers
  rw [M_bind_apply]
  simp only [getWorld]
  rw [if_neg (by rw [hflag]; exact Bool.false_ne_true)]
  rw [M_bind_apply]
  simp only [setIsScheduling, modifyW]
  unfold tryFinallyM
  rw [body_eq_fiveSchedules, M_bind_apply, ensureNotifChannel_run]
  dsimp only
  have h5 := fiveSchedules_run env s
    { w with isScheduling := true, events := w.events ++ chanEvs env }
    hF hD hA hM hI mF mD mA mM mI hkeys hpF hpD hpA hpM hpI
  rw [h5]
  dsimp only [setIsScheduling, modifyW]
  simp [List.append_assoc]

theorem scheduleAllPrayers_run_again (env : Env) (s : StoredState) (w : World)
    (hF hD hA hM hI : Int) (mF mD mA mM mI : Option Int)
    (hflag : w.isScheduling = false)
    (hpF : parseHHmm s.timings.Fajr = .ok (hF, mF))
    (hpD : parseHHmm s.timings.Dhuhr = .ok (hD, mD))
    (hpA : parseHHmm s.timings.Asr = .ok (hA, mA))
    (hpM : parseHHmm s.timings.Maghrib = .ok (hM, mM))
    (hpI : parseHHmm s.timings.Isha = .ok (hI, mI))
    (hmF : keyFor (jsStrOfOpt s.tz) .Fajr s.timings.Fajr ∈ w.scheduledKeys)
    (hmD : keyFor (jsStrOfOpt s.tz) .Dhuhr s.timings.Dhuhr ∈ w.scheduledKeys)
    (hmA : keyFor (jsStrOfOpt s.tz) .Asr s.timings.Asr ∈ w.scheduledKeys)
    (hmM : keyFor (jsStrOfOpt s.tz) .Maghrib s.timings.Maghrib ∈ w.scheduledKeys)
    (hmI : keyFor (jsStrOfOpt s.tz) .Isha s.timings.Isha ∈ w.scheduledKeys) :
    scheduleAllPrayers env s w = (.ok (), { w with
      isScheduling := false,
      events := w.events ++ chanEvs env }) := by
  unfold scheduleAllPrayers
  rw [M_bind_apply]
  simp only [getWorld]
  rw [if_neg (by rw [hflag]; exact Bool.false_ne_true)]
  rw [M_bind_apply]
  simp only [setIsScheduling, modifyW]
  unfold tryFinallyM
  rw [body_eq_fiveSchedules, M_bind_apply, ensureNotifChannel_run]
  dsimp only
  have h5 := fiveSchedules_skip env s
    { w with isScheduling := true, events := w.events ++ chanEvs env }
    hF hD hA hM hI mF mD mA mM mI hpF hpD hpA hpM hpI hmF hmD hmA hmM hmI
  rw [h5]
  dsimp only [setIsScheduling, modifyW]

/-!
## Helper lemmas: the background task branches
-/

theorem bgTask_none (env : Env) (w : World) (hs : w.storage = none) :
    bgTask env w =
      (match refreshAndReschedule env 20 0 (withEv w .storageGet) with
       | (.ok _, w2) => (.ok .newData, w2)
       | (.error _, w2) => (.ok .failed, w2)) := by
  unfold bgTask tryCatchM bgTaskBody loadState localDateISO withEv
  simp only [M_bind_apply, M_pure_apply]
  try dsimp only
  rw [hs]
  try dsimp only
  simp only [M_bind_apply, M_pure_apply]
  rcases hr : refreshAndReschedule env 20 0
    { w with storage := none, events := w.events ++ [Ev.storageGet] } with ⟨r, w2⟩
  cases r <;> rfl

theorem bgTask_stale (env : Env) (w : World) (st : StoredState)
    (hs : w.storage = some st) (hd : st.dateISO ≠ env.todayLocal) :
    bgTask env w =
      (match refreshAndReschedule env st.method st.school (withEv w .storageGet) with
       | (.ok _, w2) => (.ok .newData, w2)
       | (.error _, w2) => (.ok .failed, w2)) := by
  unfold bgTask tryCatchM bgTaskBody loadState localDateISO withEv
  simp only [M_bind_apply, M_pure_apply]
  try dsimp only
  rw [hs]
  try dsimp only
  rw [if_pos hd]
  simp only [M_bind_apply, M_pure_apply]
  rcases hr : refreshAndReschedule env st.method st.school
    { w with storage := some st, events := w.events ++ [Ev.storageGet] } with ⟨r, w2⟩
  cases r <;> rfl

theorem bgTask_today_nonempty (env : Env) (w : World) (st : StoredState)
    (hs : w.storage = some st) (hd : st.dateISO = env.todayLocal)
    (hne : w.installed ≠ []) :
    bgTask env w = (.ok .newData, withEv (withEv w .storageGet) .listScheduled) := by
  unfold bgTask tryCatchM bgTaskBody loadState localDateISO withEv
    getAllScheduledNotificationsAsync
  simp only [M_bind_apply, M_pure_apply]
  try dsimp only
  rw [hs]
  try dsimp only
  rw [if_neg (by rw [hd]; exact fun hcon => hcon rfl)]
  simp only [M_bind_apply, M_pure_apply]
  try dsimp only
  rw [if_neg (by simpa [List.length_eq_zero] using hne)]
  rfl

theorem bgTask_today_empty (env : Env) (w : World) (st : StoredState)
    (hs : w.storage = some st) (hd : st.dateISO = env.todayLocal)
    (hemp : w.installed = []) :
    bgTask env w =
      (match scheduleAllPrayers env st (withEv (withEv w .storageGet) .listScheduled) with
       | (.ok _, w2) => (.ok .newData, w2)
       | (.error _, w2) => (.ok .failed, w2)) := by
  unfold bgTask tryCatchM bgTaskBody loadState localDateISO withEv
    getAllScheduledNotificationsAsync
  simp only [M_bind_apply, M_pure_apply]
  try dsimp only
  rw [hs]
  try dsimp only
  rw [if_neg (by rw [hd]; exact fun hcon => hcon rfl)]
  simp only [M_bind_apply, M_pure_apply]
  try dsimp only
  rw [if_pos (by rw [hemp]; rfl)]
  simp only [M_bind_apply, M_pure_apply]
  rcases hr : scheduleAllPrayers env st { w with storage := some st, events := w.events ++ [Ev.storageGet] ++ [Ev.listScheduled] } with ⟨r, w2⟩
  cases r <;> rfl

/-!
## Claim theorems
-/

/-- C5: `cleanHHmm` extracts the first `H:MM`/`HH:MM` substring of its input
via pattern match, zero-pads the hour to two digits, and throws a format
error when no such substring exists; concretely "05:03" maps to "05:03",
"5:03" to "05:03", "23:59 (WIB)" to "23:59", while "abc" and "5:3" (whose
minute has only one digit) fail. -/
theorem C5_cleanHHmm_examples :
    cleanHHmm "05:03" = .ok "05:03" ∧
    cleanHHmm "5:03" = .ok "05:03" ∧
    cleanHHmm "23:59 (WIB)" = .ok "23:59" ∧
    cleanHHmm "abc" = .error "Invalid time format: abc" ∧
    cleanHHmm "5:3" = .error "Invalid time format: 5:3" :=
  ⟨by decide, by decide, by decide, by decide, by decide⟩

/-- C1: a successful `refreshAndReschedule` run performs, in order: the
location fix, the lookup request for those coordinates, persistence of a
`ScheduleState` whose `scheduleDate` is the freshly computed device-local
date (`env.todayLocal`, independent of any date in the lookup response),
the cancellation of all installed triggers, the clearing of the in-process
de-duplication set, and then only trigger-installation work; the newly
built state is both persisted and returned. -/
theorem C1_refresh_pipeline (env : Env) (m sc : Int) (w : World)
    (st : StoredState) (w' : World)
    (h : refreshAndReschedule env m sc w = (.ok st, w')) :
    st.dateISO = env.todayLocal ∧ st.method = m ∧ st.school = sc ∧
    w'.storage = some st ∧
    ∃ tail, w'.events = w.events ++ [Ev.getLocation,
        Ev.httpFetch env.dateApi st.lat st.lng m sc, Ev.storageSet st,
        Ev.cancelAllNotifs, Ev.clearKeys, Ev.settle] ++ tail ∧
      tail.all isInstallEv = true := by
  obtain ⟨lat, lng, json, t, tz, w5, w6, hloc, hapi, hdec, hstEq, hsch, hw',
    hst5, hi5, hk5, hf5, he5⟩ := refresh_ok_cases h
  subst hw'
  have hio := installsOnly_scheduleAllPrayers env st w5
  rw [hsch] at hio
  obtain ⟨hstor, tail, hev, htail⟩ := hio
  subst hstEq
  refine ⟨rfl, rfl, rfl, ?_, tail, ?_, htail⟩
  · rw [hstor, hst5]
  · rw [hev, he5]

/-- C1 witness: the pipeline property at a concrete benign environment. -/
theorem C1_refresh_pipeline_witness :
    stateOk.dateISO = envOk.todayLocal ∧ stateOk.method = 20 ∧
    stateOk.school = 0 ∧
    (refreshAndReschedule envOk 20 0 w0).2.storage = some stateOk ∧
    ∃ tail, (refreshAndReschedule envOk 20 0 w0).2.events =
        w0.events ++ [Ev.getLocation,
          Ev.httpFetch envOk.dateApi stateOk.lat stateOk.lng 20 0,
          Ev.storageSet stateOk, Ev.cancelAllNotifs, Ev.clearKeys,
          Ev.settle] ++ tail ∧
      tail.all isInstallEv = true :=
  C1_refresh_pipeline envOk 20 0 w0 stateOk
    (refreshAndReschedule envOk 20 0 w0).2 rfl

/-- C2 (amended): the `times` record of a `ScheduleState` persisted by a
successful refresh that enters with the single-flight flag clear contains
exactly the five fixed prayer names (`StoredTimings` is a record with
exactly those five fields, as in the source type), and every value matches
`\d{2}:\d{2}` with hour in [0,23] and minute in [0,59]: the two-digit
shape comes from `cleanHHmm` and the ranges from `parseHHmm`, which runs
inside `scheduleAllPrayers` and, on an out-of-range value, throws — making
the refresh unsuccessful. The flag-clear hypothesis is necessary: as
`C2_times_counterexample` shows, a refresh that enters while the flag is
set skips `scheduleAllPrayers` entirely, so `parseHHmm` never runs and the
refresh can succeed while persisting an out-of-range value. -/
theorem C2_times_invariant (env : Env) (m sc : Int) (w : World)
    (st : StoredState) (w' : World) (hflag : w.isScheduling = false)
    (h : refreshAndReschedule env m sc w = (.ok st, w')) :
    w'.storage = some st ∧
    validHHmm st.timings.Fajr = true ∧ validHHmm st.timings.Dhuhr = true ∧
    validHHmm st.timings.Asr = true ∧ validHHmm st.timings.Maghrib = true ∧
    validHHmm st.timings.Isha = true := by
  obtain ⟨lat, lng, json, t, tz, w5, w6, hloc, hapi, hdec, hstEq, hsch, hw',
    hst5, hi5, hk5, hf5, he5⟩ := refresh_ok_cases h
  subst hw'
  have hio := installsOnly_scheduleAllPrayers env st w5
  rw [hsch] at hio
  have hflag5 : w5.isScheduling = false := by rw [hf5, hflag]
  have hparse := scheduleAllPrayers_ok_parse hflag5 hsch
  obtain ⟨⟨rF, hcF⟩, ⟨rD, hcD⟩, ⟨rA, hcA⟩, ⟨rM, hcM⟩, ⟨rI, hcI⟩⟩ :=
    fetchDecode_ok_clean hdec
  obtain ⟨pF, hpF⟩ := hparse .Fajr
  obtain ⟨pD, hpD⟩ := hparse .Dhuhr
  obtain ⟨pA, hpA⟩ := hparse .Asr
  obtain ⟨pM, hpM⟩ := hparse .Maghrib
  obtain ⟨pI, hpI⟩ := hparse .Isha
  subst hstEq
  exact ⟨by rw [hio.1, hst5],
    validHHmm_of_shape_parse (cleanHHmm_shape hcF) hpF,
    validHHmm_of_shape_parse (cleanHHmm_shape hcD) hpD,
    validHHmm_of_shape_parse (cleanHHmm_shape hcA) hpA,
    validHHmm_of_shape_parse (cleanHHmm_shape hcM) hpM,
    validHHmm_of_shape_parse (cleanHHmm_shape hcI) hpI⟩

/-- C2 witness: the invariant at a concrete benign environment. -/
theorem C2_times_invariant_witness :
    (refreshAndReschedule envOk 20 0 w0).2.storage = some stateOk ∧
    validHHmm stateOk.timings.Fajr = true ∧
    validHHmm stateOk.timings.Dhuhr = true ∧
    validHHmm stateOk.timings.Asr = true ∧
    validHHmm stateOk.timings.Maghrib = true ∧
    validHHmm stateOk.timings.Isha = true :=
  C2_times_invariant envOk 20 0 w0 stateOk
    (refreshAndReschedule envOk 20 0 w0).2 rfl rfl

/-- A response whose `Fajr` value has the `\d{2}:\d{2}` shape but an
out-of-range hour: `cleanHHmm` accepts it (it checks shape only). -/
def api99 : ApiJson :=
  { isNull := false, code := some 200,
    data := some
      { timings := some
          { Fajr := some "99:00", Dhuhr := some "12:00", Asr := some "15:15",
            Maghrib := some "18:00", Isha := some "19:10" },
        meta := some { timezone := some "Asia/Jakarta" },
        date := some { readable := some "12 Oct 2026" } } }

/-- `envOk` with the out-of-range response. -/
def env99 : Env := { envOk with api := .ok api99 }

/-- A fresh world in which the single-flight flag is already set — the
state of the world while another `scheduleAllPrayers` call is in flight. -/
def wBusy : World := { w0 with isScheduling := true }

/-- The state `refreshAndReschedule env99 20 0` builds and persists. -/
def state99 : StoredState :=
  { dateISO := "2026-10-12", lat := 6, lng := 106, method := 20, school := 0,
    timings := { Fajr := "99:00", Dhuhr := "12:00", Asr := "15:15",
                 Maghrib := "18:00", Isha := "19:10" },
    tz := some "Asia/Jakarta" }

/-- C2 counterexample: a refresh that enters while the single-flight flag
is set (as happens when it races an in-flight `scheduleAllPrayers`)
succeeds and persists a state whose `Fajr` is `"99:00"` — the hour 99 is
outside [0,23], refuting the unconditional range invariant: the guard in
`scheduleAllPrayers` makes the install phase a no-op, so `parseHHmm`'s
range check never runs, while `cleanHHmm` validates the shape only. -/
theorem C2_times_counterexample :
    wBusy.isScheduling = true ∧
    (refreshAndReschedule env99 20 0 wBusy).1 = Except.ok state99 ∧
    (refreshAndReschedule env99 20 0 wBusy).2.storage = some state99 ∧
    state99.timings.Fajr = "99:00" ∧
    validHHmm state99.timings.Fajr = false :=
  ⟨rfl, rfl, rfl, rfl, by decide⟩

/-- A response that is well-formed except that `meta.timezone` is absent. -/
def apiNoTz : ApiJson :=
  { isNull := false, code := some 200,
    data := some
      { timings := some
          { Fajr := some "04:30", Dhuhr := some "12:00", Asr := some "15:15",
            Maghrib := some "18:00", Isha := some "19:10" },
        meta := some { timezone := none },
        date := some { readable := some "12 Oct 2026" } } }

/-- Environment returning `apiNoTz`. -/
def envNoTz : Env := { envOk with api := .ok apiNoTz }

/-- The state refresh builds from `apiNoTz`: `tz` is JS `undefined`. -/
def stateNoTz : StoredState := { stateOk with tz := none }

/-- C4 counterexample: the claim says `fetchTimes` fails with an error when
the response is missing the timezone field, but the source reads
`json.data.meta.timezone` with a compile-time-only cast: a response with
`meta` present and `timezone` absent decodes successfully (`tz` is
`undefined`), the refresh succeeds, and the state is persisted with no
timezone. -/
theorem C4_missing_timezone_counterexample :
    fetchDecode apiNoTz =
      .ok ({ Fajr := "04:30", Dhuhr := "12:00", Asr := "15:15",
             Maghrib := "18:00", Isha := "19:10" }, none) ∧
    refreshAndReschedule envNoTz 20 0 w0 =
      (.ok stateNoTz, (refreshAndReschedule envNoTz 20 0 w0).2) ∧
    stateNoTz.tz = none ∧
    (refreshAndReschedule envNoTz 20 0 w0).2.storage = some stateNoTz :=
  ⟨rfl, rfl, rfl, rfl⟩

/-- C4 (amended): `fetchTimes` fails when the application status code is
not 200 (or the body is null), and when any of the five prayer fields is
missing; a missing timezone field with `meta` present does not fail (see
the counterexample).  When the transport fails or the decode fails inside
a refresh, the refresh throws after emitting only the location and request
events: the persisted record, the installed triggers and the
de-duplication set are exactly as before. -/
theorem C4_fetch_failure_behaviour (json : ApiJson) (data : ApiData)
    (t : ApiTimings) (env : Env) (m sc : Int) (w : World) (lat lng : Int)
    (e1 e2 : String) :
    (json.isNull = true ∨ json.code ≠ some 200 →
      fetchDecode json = .error "Failed to fetch prayer times") ∧
    (json.data = some data → data.timings = some t →
      t.Fajr = none ∨ t.Dhuhr = none ∨ t.Asr = none ∨ t.Maghrib = none ∨
        t.Isha = none →
      ∃ e, fetchDecode json = .error e) ∧
    (env.location = .ok (lat, lng) → env.api = .error e1 →
      refreshAndReschedule env m sc w = (.error e1, { w with
        events := w.events ++ [Ev.getLocation,
          Ev.httpFetch env.dateApi lat lng m sc] })) ∧
    (env.location = .ok (lat, lng) → env.api = .ok json →
      fetchDecode json = .error e2 →
      refreshAndReschedule env m sc w = (.error e2, { w with
        events := w.events ++ [Ev.getLocation,
          Ev.httpFetch env.dateApi lat lng m sc] })) := by
  refine ⟨fetchDecode_badStatus json, fun hd ht hm => fetchDecode_missingField hd ht hm,
    fun hloc hapi => ?_, fun hloc hapi hdec => ?_⟩
  · unfold refreshAndReschedule getCurrentPositionAsync fetchPrayerTimes
      dateForApi emit
    simp only [M_bind_apply, M_pure_apply, liftE, modifyW, hloc, hapi]
    try dsimp only
    simp [List.append_assoc]
  · unfold refreshAndReschedule getCurrentPositionAsync fetchPrayerTimes
      dateForApi emit
    simp only [M_bind_apply, M_pure_apply, liftE, modifyW, hloc, hapi, hdec]
    try dsimp only
    simp [List.append_assoc]

/-- A response with HTTP-level success but application status code 400. -/
def apiBadStatus : ApiJson := { isNull := false, code := some 400, data := none }

/-- A response with a good status but no `Fajr` timing. -/
def apiNoFajr : ApiJson :=
  { isNull := false, code := some 200,
    data := some
      { timings := some
          { Fajr := none, Dhuhr := some "12:00", Asr := some "15:15",
            Maghrib := some "18:00", Isha := some "19:10" },
        meta := some { timezone := some "Asia/Jakarta" },
        date := none } }

/-- Environment whose lookup request rejects at the transport level. -/
def envNetErr : Env := { envOk with api := .error "Network request failed" }

/-- Environment whose lookup returns application status 400. -/
def envBadStatus : Env := { envOk with api := .ok apiBadStatus }

/-- C4 witness: the amended behaviour at concrete inputs. -/
theorem C4_fetch_failure_behaviour_witness :
    fetchDecode apiBadStatus = .error "Failed to fetch prayer times" ∧
    (∃ e, fetchDecode apiNoFajr = .error e) ∧
    refreshAndReschedule envNetErr 20 0 w0 =
      (.error "Network request failed", { w0 with
        events := w0.events ++ [Ev.getLocation,
          Ev.httpFetch envNetErr.dateApi 6 106 20 0] }) ∧
    refreshAndReschedule envBadStatus 20 0 w0 =
      (.error "Failed to fetch prayer times", { w0 with
        events := w0.events ++ [Ev.getLocation,
          Ev.httpFetch envBadStatus.dateApi 6 106 20 0] }) :=
  ⟨(C4_fetch_failure_behaviour apiBadStatus ⟨none, none, none⟩
      ⟨none, none, none, none, none⟩ envOk 20 0 w0 6 106 "" "").1
      (Or.inr (by decide)),
   (C4_fetch_failure_behaviour apiNoFajr
      ⟨some { Fajr := none, Dhuhr := some "12:00", Asr := some "15:15",
              Maghrib := some "18:00", Isha := some "19:10" },
        some { timezone := some "Asia/Jakarta" }, none⟩
      { Fajr := none, Dhuhr := some "12:00", Asr := some "15:15",
        Maghrib := some "18:00", Isha := some "19:10" }
      envOk 20 0 w0 6 106 "" "").2.1 rfl rfl (Or.inl rfl),
   (C4_fetch_failure_behaviour apiBadStatus ⟨none, none, none⟩
      ⟨none, none, none, none, none⟩ envNetErr 20 0 w0 6 106
      "Network request failed" "").2.2.1 rfl rfl,
   (C4_fetch_failure_behaviour apiBadStatus ⟨none, none, none⟩
      ⟨none, none, none, none, none⟩ envBadStatus 20 0 w0 6 106 ""
      "Failed to fetch prayer times").2.2.2 rfl rfl
      (fetchDecode_badStatus apiBadStatus (Or.inr (by decide)))⟩

/-- C3: on every invocation of the background task entrypoint: when the
persisted state is absent the full refresh pipeline runs with method 20
and Shafi school (0); when the stored date differs from today the full
refresh pipeline runs with the stored method and school; when the stored
date equals today the entrypoint only queries the installed triggers, calls
`scheduleAllPrayers` exactly when none are installed, and performs no
location or network work in that branch (the added events are the storage
read, the trigger query, and — in the reinstall case — install-only
events). -/
theorem C3_bg_staleness_check (env : Env) (w : World) (st : StoredState) :
    (w.storage = none →
      bgTask env w =
        (match refreshAndReschedule env 20 0 (withEv w .storageGet) with
         | (.ok _, w2) => (.ok .newData, w2)
         | (.error _, w2) => (.ok .failed, w2))) ∧
    (w.storage = some st → st.dateISO ≠ env.todayLocal →
      bgTask env w =
        (match refreshAndReschedule env st.method st.school (withEv w .storageGet) with
         | (.ok _, w2) => (.ok .newData, w2)
         | (.error _, w2) => (.ok .failed, w2))) ∧
    (w.storage = some st → st.dateISO = env.todayLocal → w.installed ≠ [] →
      bgTask env w = (.ok .newData, withEv (withEv w .storageGet) .listScheduled)) ∧
    (w.storage = some st → st.dateISO = env.todayLocal → w.installed = [] →
      bgTask env w =
        (match scheduleAllPrayers env st (withEv (withEv w .storageGet) .listScheduled) with
         | (.ok _, w2) => (.ok .newData, w2)
         | (.error _, w2) => (.ok .failed, w2)) ∧
      ∃ tail, (bgTask env w).2.events =
          w.events ++ [Ev.storageGet, Ev.listScheduled] ++ tail ∧
        tail.all isInstallEv = true) := by
  refine ⟨bgTask_none env w, bgTask_stale env w st, bgTask_today_nonempty env w st,
    fun hs hd hemp => ⟨bgTask_today_empty env w st hs hd hemp, ?_⟩⟩
  rw [bgTask_today_empty env w st hs hd hemp]
  have hio := installsOnly_scheduleAllPrayers env st
    (withEv (withEv w .storageGet) .listScheduled)
  rcases hsch : scheduleAllPrayers env st
    (withEv (withEv w .storageGet) .listScheduled) with ⟨r, w2⟩
  rw [hsch] at hio
  obtain ⟨_, tail, hev, htail⟩ := hio
  have hev' : w2.events = w.events ++ [Ev.storageGet, Ev.listScheduled] ++ tail := by
    rw [hev]
    simp [withEv]
  cases r with
  | ok u => exact ⟨tail, hev', htail⟩
  | error e => exact ⟨tail, hev', htail⟩

/-- Yesterday's persisted state. -/
def stateStale : StoredState := { stateOk with dateISO := "2026-10-11" }

/-- World with stale persisted state. -/
def wStale : World := { w0 with storage := some stateStale }

/-- World with today's state and one installed trigger. -/
def wToday : World :=
  { w0 with
    storage := some stateOk
    installed := [.daily "Fajr time" 4 (some 30)] }

/-- World with today's state and no installed triggers (OS purged them). -/
def wTodayEmpty : World := { w0 with storage := some stateOk }

/-- C3 witness: each branch at a concrete input. -/
theorem C3_bg_staleness_check_witness :
    (bgTask envOk w0 =
      (match refreshAndReschedule envOk 20 0 (withEv w0 .storageGet) with
       | (.ok _, w2) => (.ok .newData, w2)
       | (.error _, w2) => (.ok .failed, w2))) ∧
    (bgTask envOk wStale =
      (match refreshAndReschedule envOk stateStale.method stateStale.school
          (withEv wStale .storageGet) with
       | (.ok _, w2) => (.ok .newData, w2)
       | (.error _, w2) => (.ok .failed, w2))) ∧
    (bgTask envOk wToday =
      (.ok .newData, withEv (withEv wToday .storageGet) .listScheduled)) ∧
    (bgTask envOk wTodayEmpty =
      (match scheduleAllPrayers envOk stateOk
          (withEv (withEv wTodayEmpty .storageGet) .listScheduled) with
       | (.ok _, w2) => (.ok .newData, w2)
       | (.error _, w2) => (.ok .failed, w2)) ∧
      ∃ tail, (bgTask envOk wTodayEmpty).2.events =
          wTodayEmpty.events ++ [Ev.storageGet, Ev.listScheduled] ++ tail ∧
        tail.all isInstallEv = true) :=
  ⟨(C3_bg_staleness_check envOk w0 stateOk).1 rfl,
   (C3_bg_staleness_check envOk wStale stateStale).2.1 rfl (by decide),
   (C3_bg_staleness_check envOk wToday stateOk).2.2.1 rfl rfl (by decide),
   (C3_bg_staleness_check envOk wTodayEmpty stateOk).2.2.2 rfl rfl rfl⟩

/-- C7: whenever `scheduleDailyPrayer` installs (the identity is not yet in
the de-duplication set) at a moment whose device-local hour and minute
equal the parsed target, it installs the recurring daily trigger and
additionally fires an immediate one-shot (a 1-second time-interval
trigger), so the current day's occurrence is not missed. -/
theorem C7_same_minute_catchup (env : Env) (n : PrayerName) (hhmm : String)
    (tz : Option String) (w : World) (h m : Int)
    (hp : parseHHmm hhmm = .ok (h, some m))
    (hk : keyFor (jsStrOfOpt tz) n hhmm ∉ w.scheduledKeys)
    (hH : env.nowHour = h) (hM : env.nowMinute = m) :
    scheduleDailyPrayer env n hhmm tz w = (.ok (), { w with
      installed := w.installed ++ [dailyTrig n h (some m), catchTrig n],
      scheduledKeys := w.scheduledKeys ++ [keyFor (jsStrOfOpt tz) n hhmm],
      events := w.events ++ [Ev.scheduleNotif (dailyTrig n h (some m)),
        Ev.scheduleNotif (catchTrig n)] }) := by
  rw [scheduleDailyPrayer_run_install env n hhmm tz w h (some m) hp hk]
  subst hH
  subst hM
  simp [dailyTrig, catchTrig]

/-- C7 witness: catch-up at a concrete matching time. -/
theorem C7_same_minute_catchup_witness :
    scheduleDailyPrayer { envOk with nowHour := 4, nowMinute := 30 }
      .Fajr "04:30" (some "Asia/Jakarta") w0 = (.ok (), { w0 with
      installed := w0.installed ++ [dailyTrig .Fajr 4 (some 30), catchTrig .Fajr],
      scheduledKeys := w0.scheduledKeys ++
        [keyFor (jsStrOfOpt (some "Asia/Jakarta")) .Fajr "04:30"],
      events := w0.events ++ [Ev.scheduleNotif (dailyTrig .Fajr 4 (some 30)),
        Ev.scheduleNotif (catchTrig .Fajr)] }) :=
  C7_same_minute_catchup { envOk with nowHour := 4, nowMinute := 30 }
    .Fajr "04:30" (some "Asia/Jakarta") w0 4 30 (by decide)
    (by decide) rfl rfl

/-- C8: the background task entrypoint never lets an exception escape: for
every environment (including failing location fixes, transport errors,
malformed responses and invalid clock strings) and every world, it returns
the success result code or catches the error and returns the failure
result code. -/
theorem C8_bg_never_throws (env : Env) (w : World) :
    (bgTask env w).1 = .ok .newData ∨ (bgTask env w).1 = .ok .failed := by
  have hbody : ∀ r w2, bgTaskBody env w = (r, w2) →
      (∀ e, r ≠ .error e) → r = .ok .newData := by
    intro r w2 hb hne
    unfold bgTaskBody loadState localDateISO getAllScheduledNotificationsAsync at hb
    simp only [M_bind_apply, M_pure_apply] at hb
    try dsimp only at hb
    rcases hsto : w.storage with _ | st
    · rw [hsto] at hb
      try dsimp only at hb
      simp only [M_bind_apply, M_pure_apply] at hb
      rcases hr : refreshAndReschedule env 20 0 { w with storage := none, events := w.events ++ [Ev.storageGet] } with ⟨rr, wr⟩
      rw [hr] at hb
      cases rr with
      | ok a =>
        injection hb with h1 _
        exact h1.symm
      | error e =>
        injection hb with h1 _
        exact absurd h1.symm (hne e)
    · rw [hsto] at hb
      try dsimp only at hb
      by_cases hd : st.dateISO ≠ env.todayLocal
      · rw [if_pos hd] at hb
        simp only [M_bind_apply, M_pure_apply] at hb
        rcases hr : refreshAndReschedule env st.method st.school { w with storage := some st, events := w.events ++ [Ev.storageGet] } with ⟨rr, wr⟩
        rw [hr] at hb
        cases rr with
        | ok a =>
          injection hb with h1 _
          exact h1.symm
        | error e =>
          injection hb with h1 _
          exact absurd h1.symm (hne e)
      · rw [if_neg hd] at hb
        simp only [M_bind_apply, M_pure_apply] at hb
        try dsimp only at hb
        by_cases hlen : w.installed.length = 0
        · rw [if_pos hlen] at hb
          simp only [M_bind_apply, M_pure_apply] at hb
          rcases hsch : scheduleAllPrayers env st { w with storage := some st, events := w.events ++ [Ev.storageGet] ++ [Ev.listScheduled] } with ⟨rs, ws⟩
          rw [hsch] at hb
          cases rs with
          | ok u =>
            injection hb with h1 _
            exact h1.symm
          | error e =>
            injection hb with h1 _
            exact absurd h1.symm (hne e)
        · rw [if_neg hlen] at hb
          simp only [M_bind_apply, M_pure_apply] at hb
          injection hb with h1 _
          exact h1.symm
  unfold bgTask tryCatchM
  rcases hb : bgTaskBody env w with ⟨r, w2⟩
  cases r with
  | ok a =>
    left
    have := hbody (.ok a) w2 hb (by intro e hcon; cases hcon)
    injection this with h1
    rw [h1]
  | error e =>
    right
    rfl

/-- C6: `scheduleAllPrayers` is idempotent within one process lifetime:
from a fresh session (empty de-duplication set, flag clear, nothing
installed), for every state whose five clock strings satisfy the data
model's `HH:MM` invariant, running it twice sequentially without an
intervening `cancelAll` installs nothing on the second run (every composite
identity is already in the session set) and leaves exactly one recurring
daily trigger per prayer name. -/
theorem C6_installAll_idempotent (env : Env) (s : StoredState) (w : World)
    (hkeys : w.scheduledKeys = []) (hflag : w.isScheduling = false)
    (hinst : w.installed = [])
    (hvalid : ∀ n, validHHmm (timingFor s.timings n) = true) :
    ∃ w1, scheduleAllPrayers env s w = (.ok (), w1) ∧
      ∃ w2, scheduleAllPrayers env s w1 = (.ok (), w2) ∧
        w2.installed = w1.installed ∧
        ∀ n, (List.filter (isDailyFor n) w2.installed).length = 1 := by
  obtain ⟨_, aF, bF, cF, dF, _, hpF⟩ := valid_inv (hvalid .Fajr)
  obtain ⟨_, aD, bD, cD, dD, _, hpD⟩ := valid_inv (hvalid .Dhuhr)
  obtain ⟨_, aA, bA, cA, dA, _, hpA⟩ := valid_inv (hvalid .Asr)
  obtain ⟨_, aM, bM, cM, dM, _, hpM⟩ := valid_inv (hvalid .Maghrib)
  obtain ⟨_, aI, bI, cI, dI, _, hpI⟩ := valid_inv (hvalid .Isha)
  have hrun1 := scheduleAllPrayers_run_fresh env s w _ _ _ _ _ _ _ _ _ _
    hflag hkeys hpF hpD hpA hpM hpI
  refine ⟨_, hrun1, _,
    scheduleAllPrayers_run_again env s _ _ _ _ _ _ _ _ _ _ _
      rfl hpF hpD hpA hpM hpI
      (List.mem_cons_self _ _)
      (List.mem_cons_of_mem _ (List.mem_cons_self _ _))
      (List.mem_cons_of_mem _ (List.mem_cons_of_mem _ (List.mem_cons_self _ _)))
      (List.mem_cons_of_mem _ (List.mem_cons_of_mem _
        (List.mem_cons_of_mem _ (List.mem_cons_self _ _))))
      (List.mem_cons_of_mem _ (List.mem_cons_of_mem _ (List.mem_cons_of_mem _
        (List.mem_cons_of_mem _ (List.mem_cons_self _ _))))),
    rfl, ?_⟩
  intro n
  cases n <;>
    simp only [hinst, installSeg, List.nil_append, List.filter_append,
      List.filter_cons, filter_catch_seg, isDailyFor_daily, List.length_append] <;>
    simp

/-- C6 witness: idempotence at a concrete state and fresh world. -/
theorem C6_installAll_idempotent_witness :
    ∃ w1, scheduleAllPrayers envOk stateOk w0 = (.ok (), w1) ∧
      ∃ w2, scheduleAllPrayers envOk stateOk w1 = (.ok (), w2) ∧
        w2.installed = w1.installed ∧
        ∀ n, (List.filter (isDailyFor n) w2.installed).length = 1 :=
  C6_installAll_idempotent envOk stateOk w0 rfl rfl rfl
    (by intro n; cases n <;> decide)

/-- C9: `scheduleAllPrayers` is single-flight.  First, a call that starts
while the `__isScheduling` guard is set performs no work at all and returns
immediately (the world, triggers included, is unchanged).  Second, in the
cooperative interleaving where a second call runs in full while the first
is suspended inside its `try` block (`scheduleAllPrayersRace`), exactly
one daily trigger per prayer name — 5 triggers, not 10 — ends up
installed (stated away from the same-minute catch-up coincidence, which
would add one-shots, not duplicate dailies). -/
theorem C9_single_flight :
    (∀ (env : Env) (s : StoredState) (w : World), w.isScheduling = true →
      scheduleAllPrayers env s w = (.ok (), w)) ∧
    (∀ (env : Env) (s : StoredState) (w : World)
        (hF hD hA hM hI : Int) (mF mD mA mM mI : Option Int),
      w.scheduledKeys = [] → w.isScheduling = false → w.installed = [] →
      parseHHmm s.timings.Fajr = .ok (hF, mF) →
      parseHHmm s.timings.Dhuhr = .ok (hD, mD) →
      parseHHmm s.timings.Asr = .ok (hA, mA) →
      parseHHmm s.timings.Maghrib = .ok (hM, mM) →
      parseHHmm s.timings.Isha = .ok (hI, mI) →
      ¬(env.nowHour = hF ∧ some env.nowMinute = mF) →
      ¬(env.nowHour = hD ∧ some env.nowMinute = mD) →
      ¬(env.nowHour = hA ∧ some env.nowMinute = mA) →
      ¬(env.nowHour = hM ∧ some env.nowMinute = mM) →
      ¬(env.nowHour = hI ∧ some env.nowMinute = mI) →
      ∃ w2, scheduleAllPrayersRace env s w = (.ok (), w2) ∧
        w2.installed = [dailyTrig .Fajr hF mF, dailyTrig .Dhuhr hD mD,
          dailyTrig .Asr hA mA, dailyTrig .Maghrib hM mM,
          dailyTrig .Isha hI mI] ∧
        w2.installed.length = 5 ∧
        ∀ n, (List.filter (isDailyFor n) w2.installed).length = 1) := by
  refine ⟨scheduleAllPrayers_guard, ?_⟩
  intro env s w hF hD hA hM hI mF mD mA mM mI hkeys hflag hinst hpF hpD hpA
    hpM hpI hnF hnD hnA hnM hnI
  have hrace : scheduleAllPrayersRace env s w = (.ok (), { w with
      installed := w.installed ++ (installSeg env .Fajr hF mF ++
        (installSeg env .Dhuhr hD mD ++ (installSeg env .Asr hA mA ++
        (installSeg env .Maghrib hM mM ++ installSeg env .Isha hI mI)))),
      scheduledKeys := [keyFor (jsStrOfOpt s.tz) .Fajr s.timings.Fajr,
        keyFor (jsStrOfOpt s.tz) .Dhuhr s.timings.Dhuhr,
        keyFor (jsStrOfOpt s.tz) .Asr s.timings.Asr,
        keyFor (jsStrOfOpt s.tz) .Maghrib s.timings.Maghrib,
        keyFor (jsStrOfOpt s.tz) .Isha s.timings.Isha],
      isScheduling := false,
      events := w.events ++ (chanEvs env ++ (installSegEv env .Fajr hF mF ++
        (installSegEv env .Dhuhr hD mD ++ (installSegEv env .Asr hA mA ++
        (installSegEv env .Maghrib hM mM ++
          installSegEv env .Isha hI mI))))) }) := by
    unfold scheduleAllPrayersRace
    rw [M_bind_apply]
    simp only [getWorld]
    rw [if_neg (by rw [hflag]; exact Bool.false_ne_true)]
    rw [M_bind_apply]
    simp only [setIsScheduling, modifyW]
    unfold tryFinallyM
    rw [M_bind_apply,
      scheduleAllPrayers_guard env s { w with isScheduling := true } rfl]
    try dsimp only
    rw [body_eq_fiveSchedules, M_bind_apply, ensureNotifChannel_run]
    try dsimp only
    have h5 := fiveSchedules_run env s
      { w with isScheduling := true, events := w.events ++ chanEvs env }
      hF hD hA hM hI mF mD mA mM mI hkeys hpF hpD hpA hpM hpI
    rw [h5]
    dsimp only [setIsScheduling, modifyW]
    simp [List.append_assoc]
  refine ⟨_, hrace, ?_, ?_, ?_⟩
  · simp [hinst, installSeg, if_neg hnF, if_neg hnD, if_neg hnA, if_neg hnM,
      if_neg hnI]
  · simp [hinst, installSeg, if_neg hnF, if_neg hnD, if_neg hnA, if_neg hnM,
      if_neg hnI]
  · intro n
    cases n <;>
      simp only [hinst, installSeg, List.nil_append, List.filter_append,
        List.filter_cons, filter_catch_seg, isDailyFor_daily,
        List.length_append] <;>
      simp

/-- C9 witness: the single-flight behaviour at concrete inputs. -/
theorem C9_single_flight_witness :
    scheduleAllPrayers envOk stateOk { w0 with isScheduling := true } =
      (.ok (), { w0 with isScheduling := true }) ∧
    ∃ w2, scheduleAllPrayersRace envOk stateOk w0 = (.ok (), w2) ∧
      w2.installed = [dailyTrig .Fajr 4 (some 30), dailyTrig .Dhuhr 12 (some 0),
        dailyTrig .Asr 15 (some 15), dailyTrig .Maghrib 18 (some 0),
        dailyTrig .Isha 19 (some 10)] ∧
      w2.installed.length = 5 ∧
      ∀ n, (List.filter (isDailyFor n) w2.installed).length = 1 :=
  ⟨C9_single_flight.1 envOk stateOk { w0 with isScheduling := true } rfl,
   C9_single_flight.2 envOk stateOk w0 4 12 15 18 19 (some 30) (some 0)
     (some 15) (some 0) (some 10) rfl rfl rfl (by decide) (by decide)
     (by decide) (by decide) (by decide) (by decide) (by decide) (by decide)
     (by decide) (by decide)⟩

/-- C10 counterexample: `loadState` does not return absent *exactly* when
no record is stored — a stored record whose text is `"null"` parses to the
JS value `null`, which is indistinguishable from the absent result. -/
theorem C10_loadState_null_counterexample :
    loadStateRaw (some "null") = .ok Json.null ∧
    some "null" ≠ (none : Option String) :=
  ⟨rfl, by decide⟩

/-- C10 (amended): `loadState` returns `null` when no record is stored, and
also when the stored string is empty (falsy) or parses to JSON `null`;
otherwise it returns the JSON-parsed value with no validation of its shape
(any parsed JSON value is returned, cast to `StoredState` at compile time
only), and non-JSON stored content makes it throw rather than return
absent. -/
theorem C10_loadState_behaviour :
    loadStateRaw none = .ok .null ∧
    loadStateRaw (some "") = .ok .null ∧
    (∀ s j, s ≠ "" → jsonParse s = some j → loadStateRaw (some s) = .ok j) ∧
    (∀ s, s ≠ "" → jsonParse s = none →
      loadStateRaw (some s) = .error "SyntaxError: invalid JSON") ∧
    loadStateRaw (some "abc") = .error "SyntaxError: invalid JSON" ∧
    loadStateRaw (some "\x7b\"a\":1\x7d") = .ok (.obj [("a", .num 1)]) := by
  refine ⟨rfl, rfl, ?_, ?_, rfl, rfl⟩
  · intro s j hne hp
    unfold loadStateRaw
    try dsimp only
    rw [if_neg hne, hp]
  · intro s hne hp
    unfold loadStateRaw
    try dsimp only
    rw [if_neg hne, hp]

/-- C10 witness: the amended behaviour at concrete stored strings. -/
theorem C10_loadState_behaviour_witness :
    loadStateRaw (some "123") = .ok (.num 123) ∧
    loadStateRaw (some "nope") = .error "SyntaxError: invalid JSON" :=
  ⟨C10_loadState_behaviour.2.2.1 "123" (.num 123) (by decide) rfl,
   C10_loadState_behaviour.2.2.2.1 "nope" (by decide) rfl⟩
